import Mathlib

/-!
Verification development for the n8n-resource-operator reconciliation core.

The Go sources are shallowly embedded as pure Lean functions:
* `internal/n8n/client.go` — workflow payloads, create/update request bodies,
  cursor-draining list, find-by-name, and an idealized remote n8n engine
  (`RemoteState`) whose responses follow the server rules the client relies on.
* `internal/controller/n8nworkflow_controller.go` — `getN8nClient`,
  `reconcileWorkflow`, `handleDeletion`, `needsUpdate`, `extractWebhookURL`,
  `setCondition` (via apimachinery `SetStatusCondition` semantics) and the
  top-level `Reconcile` dispatch.
* `internal/controller/n8ninstance_controller.go` — `validateInstance`.

Remote workflow identifiers are opaque server-chosen strings in Go; they are
modelled as naturals (`none`/`some` standing for the empty / non-empty
`Status.WorkflowID` string).  Kubernetes API writes (status updates, finalizer
updates) are modelled as always succeeding.  JSON documents carried opaquely by
the controller are modelled by `JValue`.
-/

/-- Opaque JSON value, as far as this core inspects it (`map[string]any`). -/
inductive JValue where
  | str : String → JValue
  | num : Int → JValue
  | jbool : Bool → JValue
  | obj : List (String × JValue) → JValue
  | arr : List JValue → JValue
  | null : JValue

/-- A Go `map[string]any`, as an association list. -/
abbrev JObj := List (String × JValue)

/-- One workflow node (`map[string]any` in Go). -/
abbrev Node := JObj

/-- `m[k].(string)` — the Go type assertion succeeding only on a string. -/
def getStr (m : JObj) (k : String) : Option String :=
  match m.lookup k with
  | some (JValue.str s) => some s
  | _ => none

/-- `m[k].(map[string]any)` — the Go type assertion succeeding only on an object. -/
def getObj (m : JObj) (k : String) : Option JObj :=
  match m.lookup k with
  | some (JValue.obj o) => some o
  | _ => none

/-- `n8n.Workflow` (client.go).  `id` is the remote identifier (opaque string in
Go, modelled as a natural). -/
structure Workflow where
  id : Nat := 0
  name : String := ""
  active : Bool := false
  nodes : List Node := []
  connections : JObj := []
  settings : JObj := []
  staticData : JObj := []
  pinData : JObj := []

/-- `n8n.WorkflowCreateRequest` (client.go): the request body for create and
update; it has no activation field by construction. -/
structure WorkflowCreateRequest where
  name : String := ""
  nodes : List Node := []
  connections : JObj := []
  settings : JObj := []
  staticData : JObj := []
  pinData : JObj := []

/-- The body built by `CreateWorkflow` and `UpdateWorkflow` from an in-memory
`Workflow` (both Go functions construct the same `WorkflowCreateRequest`). -/
def mkCreateRequest (w : Workflow) : WorkflowCreateRequest :=
  { name := w.name
    nodes := w.nodes
    connections := w.connections
    settings := w.settings
    staticData := w.staticData
    pinData := w.pinData }

def keyName : String := "name"
def keyNodes : String := "nodes"
def keyConnections : String := "connections"
def keySettings : String := "settings"
def keyStaticData : String := "staticData"
def keyPinData : String := "pinData"
def keyActive : String := "active"

/-- JSON serialization of the create/update request body, following the struct
tags on `WorkflowCreateRequest`: `name` always, the rest `omitempty`. -/
def encodeCreateRequest (r : WorkflowCreateRequest) : JObj :=
  [(keyName, JValue.str r.name)]
  ++ (if r.nodes.isEmpty then [] else [(keyNodes, JValue.arr (r.nodes.map JValue.obj))])
  ++ (if r.connections.isEmpty then [] else [(keyConnections, JValue.obj r.connections)])
  ++ (if r.settings.isEmpty then [] else [(keySettings, JValue.obj r.settings)])
  ++ (if r.staticData.isEmpty then [] else [(keyStaticData, JValue.obj r.staticData)])
  ++ (if r.pinData.isEmpty then [] else [(keyPinData, JValue.obj r.pinData)])

/-! ## Paginated listing and find-by-name (client.go) -/

/-- One page of `WorkflowListResponse`: a data chunk and the next cursor
(`""` when the listing is exhausted). -/
structure Page where
  data : List Workflow := []
  nextCursor : String := ""

/-- `ListWorkflows`: drain the cursor chain, concatenating every page's data in
order; the loop stops at the first page whose `nextCursor` is empty (or when
the server has no further page). -/
def ListWorkflows : List Page → List Workflow
  | [] => []
  | p :: rest => p.data ++ (if p.nextCursor = "" then [] else ListWorkflows rest)

/-- The linear scan inside `GetWorkflowByName`: first workflow whose name is
exactly `name`. -/
def findFirstByName : List Workflow → String → Option Workflow
  | [], _ => none
  | w :: rest, name => if w.name = name then some w else findFirstByName rest name

/-- `GetWorkflowByName`: drain the list, scan for the exact name, return
`none` (Go `nil, nil`) rather than an error when absent. -/
def GetWorkflowByName (pages : List Page) (name : String) : Except String (Option Workflow) :=
  Except.ok (findFirstByName (ListWorkflows pages) name)

/-! ## Idealized remote engine state

The remote n8n engine, as the client-visible rules assume it behaves: get by
id finds the workflow with that id, create assigns a fresh id to an inactive
workflow, update rewrites the content fields of the identified workflow and
never touches `active`, activate/deactivate flip only `active`, delete removes
the workflow and answers a "not found" error body for an unknown id (the error
text matches the repo's own test server, `client_test.go`). -/

structure RemoteState where
  wfs : List Workflow := []
  nextID : Nat := 0

/-- `GET /api/v1/workflows/{id}` resolved against the remote list. -/
def rsGet (rs : RemoteState) (id : Nat) : Option Workflow :=
  rs.wfs.find? (fun w => w.id == id)

/-- `GetWorkflowByName` resolved against the remote list (first exact match). -/
def rsFindByName (rs : RemoteState) (name : String) : Option Workflow :=
  rs.wfs.find? (fun w => w.name == name)

/-- `POST /api/v1/workflows`: the server stores the request body under a fresh
id; a newly created workflow is inactive (`active` is absent from the body and
operator-managed). -/
def serverCreate (rs : RemoteState) (req : WorkflowCreateRequest) : RemoteState × Workflow :=
  let created : Workflow :=
    { id := rs.nextID
      name := req.name
      active := false
      nodes := req.nodes
      connections := req.connections
      settings := req.settings
      staticData := req.staticData
      pinData := req.pinData }
  ({ wfs := rs.wfs ++ [created], nextID := rs.nextID + 1 }, created)

/-- Overwrite a stored workflow's content fields with an update request body,
keeping its id and activation state. -/
def applyUpdate (w : Workflow) (req : WorkflowCreateRequest) : Workflow :=
  { w with
    name := req.name
    nodes := req.nodes
    connections := req.connections
    settings := req.settings
    staticData := req.staticData
    pinData := req.pinData }

/-- `PUT /api/v1/workflows/{id}`: rewrite the identified workflow's content and
respond with the stored result (`none` = unknown id, surfaced as an error by
the client). -/
def serverUpdate (rs : RemoteState) (id : Nat) (req : WorkflowCreateRequest) :
    RemoteState × Option Workflow :=
  let rs' : RemoteState :=
    { rs with wfs := rs.wfs.map fun w => if w.id == id then applyUpdate w req else w }
  (rs', rsGet rs' id)

/-- `POST .../activate` and `.../deactivate`: flip only the activation boolean
and respond with the stored result. -/
def serverSetActive (rs : RemoteState) (id : Nat) (b : Bool) :
    RemoteState × Option Workflow :=
  let rs' : RemoteState :=
    { rs with wfs := rs.wfs.map fun w => if w.id == id then { w with active := b } else w }
  (rs', rsGet rs' id)

def deleteFailA : String := "failed to delete workflow "
def deleteFailB : String := ": Workflow not found"

/-- The wrapped error text `DeleteWorkflow` produces for an unknown id: the
client wraps with "failed to delete workflow %s: %w" and the engine answers the
body `{"message": "Workflow not found"}` (as in `client_test.go`). -/
def deleteNotFoundMsg (id : Nat) : String :=
  deleteFailA ++ toString id ++ deleteFailB

/-- `DELETE /api/v1/workflows/{id}`: remove the workflow, or answer the
not-found error for an unknown id. -/
def serverDelete (rs : RemoteState) (id : Nat) : RemoteState × Option String :=
  match rsGet rs id with
  | some _ => ({ rs with wfs := rs.wfs.filter fun w => !(w.id == id) }, none)
  | none => (rs, some (deleteNotFoundMsg id))

/-- Well-formed remote state: stored ids are pairwise distinct and below the
fresh-id counter. -/
def RemoteState.WF (rs : RemoteState) : Prop :=
  (rs.wfs.map Workflow.id).Nodup ∧ ∀ w ∈ rs.wfs, w.id < rs.nextID

/-! ## Declared resource (api/v1alpha1/n8nworkflow_types.go) -/

def SyncPolicyAlways : String := "Always"
def SyncPolicyCreateOnly : String := "CreateOnly"
def SyncPolicyManual : String := "Manual"
def ConditionTypeReady : String := "Ready"
def ConditionTypeSynced : String := "Synced"
def ReasonSyncSucceeded : String := "SyncSucceeded"
def ReasonSyncFailed : String := "SyncFailed"
def ReasonActivationError : String := "ActivationError"
def ReasonAPIError : String := "APIError"
def ReasonSyncPaused : String := "SyncPaused"

/-- The cleanup finalizer token (n8nworkflow_controller.go). -/
def finalizerName : String := "n8n.slys.dev/workflow-cleanup"

/-- `defaultRequeueInterval` (5 minutes, in seconds). -/
def defaultRequeueInterval : Nat := 300

/-- `errorRequeueInterval` (30 seconds). -/
def errorRequeueInterval : Nat := 30

/-- `SecretKeyRef`. -/
structure SecretKeyRef where
  name : String := ""
  key : String := ""

/-- `N8nRef`: explicit URL or service-discovery triple plus secret reference. -/
structure N8nRef where
  url : String := ""
  name : String := ""
  ns : String := ""
  port : Nat := 0
  secretRef : Option SecretKeyRef := none

/-- `WorkflowSpec`: the declared payload.  The `RawExtension` JSON documents
are modelled as already-unmarshalled structured values. -/
structure WorkflowSpecCR where
  name : String := ""
  nodes : List Node := []
  connections : JObj := []
  settings : JObj := []
  staticData : JObj := []
  pinData : JObj := []

/-- `N8nWorkflowSpec`. -/
structure N8nWorkflowSpecCR where
  n8nRef : Option N8nRef := none
  syncPolicy : String := ""
  active : Bool := false
  workflow : WorkflowSpecCR := {}

/-- One `metav1.Condition` (times as naturals). -/
structure Condition where
  type : String := ""
  status : Bool := false
  observedGeneration : Nat := 0
  lastTransitionTime : Nat := 0
  reason : String := ""
  message : String := ""
deriving DecidableEq

/-- `N8nWorkflowStatus`.  `workflowID = none` models the empty string. -/
structure N8nWorkflowStatusCR where
  workflowID : Option Nat := none
  active : Bool := false
  lastSyncTime : Option Nat := none
  webhookURL : String := ""
  observedGeneration : Nat := 0
  conditions : List Condition := []

/-- An `N8nWorkflow` resource with the object metadata this core reads. -/
structure N8nWorkflowCR where
  ns : String := ""
  generation : Nat := 0
  deletionTimestamp : Bool := false
  finalizers : List String := []
  spec : N8nWorkflowSpecCR := {}
  status : N8nWorkflowStatusCR := {}

/-- apimachinery `meta.SetStatusCondition`: upsert keyed by condition type;
`LastTransitionTime` is preserved when the boolean status does not change. -/
def setStatusCondition (conds : List Condition) (c : Condition) : List Condition :=
  if conds.any (fun x => x.type == c.type) then
    conds.map fun x =>
      if x.type == c.type then
        { x with
          status := c.status
          lastTransitionTime := if x.status == c.status then x.lastTransitionTime else c.lastTransitionTime
          reason := c.reason
          message := c.message
          observedGeneration := c.observedGeneration }
      else x
  else conds ++ [c]

/-- `setCondition` on the workflow reconciler. -/
def setCond (cr : N8nWorkflowCR) (ctype : String) (cstatus : Bool)
    (reason msg : String) (now : Nat) : N8nWorkflowCR :=
  { cr with status := { cr.status with conditions :=
      (setStatusCondition cr.status.conditions
        { type := ctype
          status := cstatus
          observedGeneration := cr.generation
          lastTransitionTime := now
          reason := reason
          message := msg }) } }

/-! ## Webhook extraction (n8nworkflow_controller.go, extractWebhookURL) -/

def webhookNodeType : String := "n8n-nodes-base.webhook"
def keyType : String := "type"
def keyParameters : String := "parameters"
def keyPath : String := "path"
def webhookPathStem : String := "/webhook/"

/-- The scan loop of `extractWebhookURL`: a node whose `type` is not a string
is skipped; a webhook-typed node whose `parameters` is not an object is
skipped; a webhook-typed node whose parameters lack a string `path` falls
through to the next node. -/
def extractWebhookLoop : List Node → String
  | [] => ""
  | n :: rest =>
    match getStr n keyType with
    | none => extractWebhookLoop rest
    | some t =>
      if t = webhookNodeType then
        match getObj n keyParameters with
        | none => extractWebhookLoop rest
        | some params =>
          match getStr params keyPath with
          | some p => webhookPathStem ++ p
          | none => extractWebhookLoop rest
      else extractWebhookLoop rest

/-- `extractWebhookURL`: empty for a nil or node-less workflow, otherwise the
scan above. -/
def extractWebhookURL (workflow : Option Workflow) : String :=
  match workflow with
  | none => ""
  | some wf => if wf.nodes.isEmpty then "" else extractWebhookLoop wf.nodes

/-! ## Client construction (getN8nClient) and instance validation -/

/-- Reconciler defaults plus the process environment fallbacks. -/
structure OperatorCfg where
  defaultN8nURL : String := ""
  defaultN8nAPIKey : String := ""
  envN8nURL : String := ""
  envN8nAPIKey : String := ""

/-- The secret store: (namespace, name) ↦ data map. -/
abbrev SecretStore := List ((String × String) × List (String × String))

/-- A configured n8n client (base URL and API key header value). -/
structure ClientCfg where
  baseURL : String := ""
  apiKey : String := ""
deriving DecidableEq

def defaultServiceName : String := "n8n-service"
def defaultSecretKey : String := "api-key"
def urlStemA : String := "http://"
def urlStemB : String := ".svc.cluster.local:"
def dotSep : String := "."
def errSecretFetch : String := "failed to get API key secret"
def errSecretKeyMissing : String := "secret does not contain key "
def errNoURL : String := "no n8n URL configured"
def errNoAPIKey : String := "no n8n API key configured"

/-- `getN8nClient` (n8nworkflow_controller.go): explicit URL wins over the
service triple; triple components default to `n8n-service`, the workflow's
namespace and port 5678; the API key comes from the referenced secret, else
the reconciler defaults, else the environment; an empty final URL or key is an
error. -/
def getN8nClient (r : OperatorCfg) (store : SecretStore) (cr : N8nWorkflowCR) :
    Except String ClientCfg :=
  let fromRef : Except String (String × String) :=
    match cr.spec.n8nRef with
    | none => Except.ok ("", "")
    | some ref =>
      let baseURL :=
        if ref.url ≠ "" then ref.url
        else
          let ns0 := if ref.ns = "" then cr.ns else ref.ns
          let name0 := if ref.name = "" then defaultServiceName else ref.name
          let port0 := if ref.port = 0 then 5678 else ref.port
          urlStemA ++ name0 ++ dotSep ++ ns0 ++ urlStemB ++ toString port0
      match ref.secretRef with
      | none => Except.ok (baseURL, "")
      | some sref =>
        let secretNs := if ref.ns = "" then cr.ns else ref.ns
        match store.lookup (secretNs, sref.name) with
        | none => Except.error errSecretFetch
        | some data =>
          let key := if sref.key = "" then defaultSecretKey else sref.key
          match data.lookup key with
          | none => Except.error (errSecretKeyMissing ++ key)
          | some v => Except.ok (baseURL, v)
  match fromRef with
  | Except.error e => Except.error e
  | Except.ok (b0, k0) =>
    let baseURL := if b0 = "" then (if r.defaultN8nURL ≠ "" then r.defaultN8nURL else r.envN8nURL) else b0
    let apiKey := if k0 = "" then (if r.defaultN8nAPIKey ≠ "" then r.defaultN8nAPIKey else r.envN8nAPIKey) else k0
    if baseURL = "" then Except.error errNoURL
    else if apiKey = "" then Except.error errNoAPIKey
    else Except.ok { baseURL := baseURL, apiKey := apiKey }

/-- `ServiceRef` of an `N8nInstance`, as read by `validateInstance`. -/
structure ServiceRef where
  name : String := ""
  ns : String := ""

/-- `InstanceCredentials`, as read by `validateInstance`. -/
structure InstanceCredentials where
  secretName : String := ""

/-- The `N8nInstance` spec fields read by `validateInstance`
(n8ninstance_controller.go). -/
structure N8nInstanceSpecCR where
  url : String := ""
  serviceRef : Option ServiceRef := none
  credentials : InstanceCredentials := {}

def errNeitherSet : String := "either url or serviceRef must be specified"
def errBothSet : String := "only one of url or serviceRef can be specified, not both"
def errSvcName : String := "serviceRef.name is required"
def errSvcNamespace : String := "serviceRef.namespace is required"
def errSecretName : String := "credentials.secretName is required"

/-- `validateInstance` (n8ninstance_controller.go): `some msg` is a validation
error, `none` means the configuration is accepted. -/
def validateInstance (spec : N8nInstanceSpecCR) : Option String :=
  let hasURL := spec.url ≠ ""
  let hasServiceRef := spec.serviceRef.isSome
  if ¬hasURL ∧ ¬hasServiceRef then some errNeitherSet
  else if hasURL ∧ hasServiceRef then some errBothSet
  else
    match spec.serviceRef with
    | some sr =>
      if sr.name = "" then some errSvcName
      else if sr.ns = "" then some errSvcNamespace
      else if spec.credentials.secretName = "" then some errSecretName
      else none
    | none =>
      if spec.credentials.secretName = "" then some errSecretName
      else none

/-! ## One reconciliation pass -/

/-- A remote API call made during a pass, in order. -/
inductive RemoteCall where
  | getById : Nat → RemoteCall
  | findByName : String → RemoteCall
  | create : RemoteCall
  | update : Nat → RemoteCall
  | activate : Nat → RemoteCall
  | deactivate : Nat → RemoteCall
  | delete : Nat → RemoteCall
deriving DecidableEq

def isCreate : RemoteCall → Bool
  | RemoteCall.create => true
  | _ => false

def isUpdateCall : RemoteCall → Bool
  | RemoteCall.update _ => true
  | _ => false

def isActivate : RemoteCall → Bool
  | RemoteCall.activate _ => true
  | _ => false

def isDeactivate : RemoteCall → Bool
  | RemoteCall.deactivate _ => true
  | _ => false

def isDelete : RemoteCall → Bool
  | RemoteCall.delete _ => true
  | _ => false

def countCreates (t : List RemoteCall) : Nat := (t.filter isCreate).length
def countUpdates (t : List RemoteCall) : Nat := (t.filter isUpdateCall).length
def countActivates (t : List RemoteCall) : Nat := (t.filter isActivate).length
def countDeactivates (t : List RemoteCall) : Nat := (t.filter isDeactivate).length
def countDeletes (t : List RemoteCall) : Nat := (t.filter isDelete).length

/-- The `ctrl.Result` / error pair a pass returns. -/
structure RecResult where
  requeue : Bool := false
  requeueAfter : Option Nat := none
  err : Option String := none
deriving DecidableEq

/-- Everything one pass produces: the written resource, the remote state left
behind, the ordered remote calls, warning events, and the returned result. -/
structure PassOut where
  cr : N8nWorkflowCR
  remote : RemoteState
  trace : List RemoteCall := []
  warnings : List String := []
  result : RecResult := {}

/-- The effective sync policy: empty defaults to `Always`
(reconcileWorkflow, lines 200-203). -/
def effectivePolicy (cr : N8nWorkflowCR) : String :=
  if cr.spec.syncPolicy = "" then SyncPolicyAlways else cr.spec.syncPolicy

/-- `convertToN8nWorkflow`: CRD spec to an n8n API workflow.  The JSON
documents are modelled as already structured, so the unmarshal error branches
cannot fire. -/
def convertToN8nWorkflow (cr : N8nWorkflowCR) : Workflow :=
  { id := 0
    name := cr.spec.workflow.name
    active := cr.spec.active
    nodes := cr.spec.workflow.nodes
    connections := cr.spec.workflow.connections
    settings := cr.spec.workflow.settings
    staticData := cr.spec.workflow.staticData
    pinData := cr.spec.workflow.pinData }

/-- `needsUpdate` (n8nworkflow_controller.go, lines 458-463): "For now, always
update to ensure consistency". -/
def needsUpdate (_existing : Workflow) (_desired : Workflow) : Bool :=
  true

/-- Resolving the remote counterpart (lines 228-252): get by recorded id when
one exists, falling back to find-by-name on any failure; no recorded id goes
straight to find-by-name. -/
def resolveExisting (cr : N8nWorkflowCR) (rs : RemoteState) :
    Option Workflow × List RemoteCall :=
  match cr.status.workflowID with
  | some id =>
    match rsGet rs id with
    | some w => (some w, [RemoteCall.getById id])
    | none =>
      (rsFindByName rs cr.spec.workflow.name,
       [RemoteCall.getById id, RemoteCall.findByName cr.spec.workflow.name])
  | none =>
    (rsFindByName rs cr.spec.workflow.name,
     [RemoteCall.findByName cr.spec.workflow.name])

def msgUpdateFailed : String := "Failed to update workflow"
def msgActivateFailed : String := "Failed to activate workflow"
def msgDeactivateFailed : String := "Failed to deactivate workflow"
def msgSyncedOK : String := "Workflow synced successfully"
def msgSyncedN8n : String := "Workflow synced to n8n"
def msgPaused : String := "Sync is paused (syncPolicy: Manual)"

/-- An error return: condition already written on `cr`, requeue after the
error backoff, error surfaced to the dispatcher. -/
def errOut (cr : N8nWorkflowCR) (rs : RemoteState) (t : List RemoteCall)
    (msg : String) : PassOut :=
  { cr := cr
    remote := rs
    trace := t
    warnings := [msg]
    result := { requeueAfter := some errorRequeueInterval, err := some msg } }

/-- The create-or-update stage (lines 254-299): create when no counterpart was
found, otherwise record its id and update unless the policy is `CreateOnly`
(`needsUpdate` gates the call).  Returns either an early error `PassOut` or
the state for the activation stage together with the fresh counterpart. -/
def upsertPhase (cr : N8nWorkflowCR) (rs : RemoteState) (now : Nat) :
    PassOut ⊕ (N8nWorkflowCR × RemoteState × List RemoteCall × Workflow) :=
  let desired := convertToN8nWorkflow cr
  match resolveExisting cr rs with
  | (none, t) =>
    let res := serverCreate rs (mkCreateRequest desired)
    Sum.inr ({ cr with status := { cr.status with workflowID := some res.2.id } },
             res.1, t ++ [RemoteCall.create], res.2)
  | (some w, t) =>
    let cr1 := { cr with status := { cr.status with workflowID := some w.id } }
    if effectivePolicy cr = SyncPolicyCreateOnly then
      Sum.inr (cr1, rs, t, w)
    else
      if needsUpdate w desired then
        match serverUpdate rs w.id (mkCreateRequest desired) with
        | (rs1, some updated) =>
          Sum.inr (cr1, rs1, t ++ [RemoteCall.update w.id], updated)
        | (rs1, none) =>
          Sum.inl (errOut
            (setCond cr1 ConditionTypeReady false ReasonSyncFailed msgUpdateFailed now)
            rs1 (t ++ [RemoteCall.update w.id]) msgUpdateFailed)
      else
        Sum.inr (cr1, rs, t, w)

/-- Successful completion (lines 338-357): webhook URL, last-sync time,
observed generation, Ready/Synced conditions, steady-state requeue. -/
def finalize (cr : N8nWorkflowCR) (rs : RemoteState) (t : List RemoteCall)
    (existing : Workflow) (now : Nat) : PassOut :=
  let cr1 := { cr with status := { cr.status with
      webhookURL := extractWebhookURL (some existing)
      lastSyncTime := some now
      observedGeneration := cr.generation } }
  let cr2 := setCond cr1 ConditionTypeReady true ReasonSyncSucceeded msgSyncedOK now
  let cr3 := setCond cr2 ConditionTypeSynced true ReasonSyncSucceeded msgSyncedN8n now
  { cr := cr3
    remote := rs
    trace := t
    result := { requeueAfter := some defaultRequeueInterval } }

/-- The activation-convergence stage (lines 301-336): the declared desired
boolean is compared against the freshly read counterpart's `Active`; the call
targets `Status.WorkflowID` (set by the upsert stage). -/
def afterUpsert (cr : N8nWorkflowCR) (rs : RemoteState) (t : List RemoteCall)
    (existing : Workflow) (now : Nat) : PassOut :=
  let wfID := cr.status.workflowID.getD 0
  if cr.spec.active && !existing.active then
    match serverSetActive rs wfID true with
    | (rs1, some activated) =>
      finalize { cr with status := { cr.status with active := true } }
        rs1 (t ++ [RemoteCall.activate wfID]) activated now
    | (rs1, none) =>
      errOut (setCond cr ConditionTypeReady false ReasonActivationError msgActivateFailed now)
        rs1 (t ++ [RemoteCall.activate wfID]) msgActivateFailed
  else if !cr.spec.active && existing.active then
    match serverSetActive rs wfID false with
    | (rs1, some deactivated) =>
      finalize { cr with status := { cr.status with active := false } }
        rs1 (t ++ [RemoteCall.deactivate wfID]) deactivated now
    | (rs1, none) =>
      errOut (setCond cr ConditionTypeReady false ReasonActivationError msgDeactivateFailed now)
        rs1 (t ++ [RemoteCall.deactivate wfID]) msgDeactivateFailed
  else
    finalize { cr with status := { cr.status with active := existing.active } }
      rs t existing now

/-- The `Manual` policy gate (lines 206-214): report paused, touch nothing. -/
def manualPass (cr : N8nWorkflowCR) (rs : RemoteState) (now : Nat) : PassOut :=
  { cr := setCond cr ConditionTypeReady true ReasonSyncPaused msgPaused now
    remote := rs
    trace := []
    result := { requeueAfter := some defaultRequeueInterval } }

/-- `reconcileWorkflow` (lines 196-358). -/
def reconcileWorkflow (cr : N8nWorkflowCR) (rs : RemoteState) (now : Nat) : PassOut :=
  if effectivePolicy cr = SyncPolicyManual then manualPass cr rs now
  else
    match upsertPhase cr rs now with
    | Sum.inl p => p
    | Sum.inr (cr1, rs1, t1, existing) => afterUpsert cr1 rs1 t1 existing now

/-! ## Deletion cleanup and the top-level dispatch -/

/-- Substring occurrence on character lists. -/
def listContainsSub (pat : List Char) : List Char → Bool
  | [] => pat.isPrefixOf []
  | c :: rest => pat.isPrefixOf (c :: rest) || listContainsSub pat rest

/-- Go `strings.Contains`. -/
def strContains (s pat : String) : Bool :=
  listContainsSub pat.data s.data

def notFoundTitle : String := "Not Found"
def notFoundLower : String := "not found"

/-- The not-found test in `handleDeletion` (lines 375-377). -/
def errIsNotFound (e : String) : Bool :=
  strContains e notFoundTitle || strContains e notFoundLower

def msgDeleteFailedEvent : String := "Failed to delete workflow from n8n: "

/-- `handleDeletion` (lines 360-398): with the finalizer present, delete the
recorded workflow (a not-found answer is already-deleted success, any other
failure only emits a warning), then remove the finalizer; without a recorded
id the finalizer is removed immediately. -/
def handleDeletion (cr : N8nWorkflowCR) (rs : RemoteState) : PassOut :=
  if finalizerName ∈ cr.finalizers then
    let step : RemoteState × List RemoteCall × List String :=
      match cr.status.workflowID with
      | some id =>
        match serverDelete rs id with
        | (rs1, none) => (rs1, [RemoteCall.delete id], [])
        | (rs1, some e) =>
          if errIsNotFound e then (rs1, [RemoteCall.delete id], [])
          else (rs1, [RemoteCall.delete id], [msgDeleteFailedEvent ++ e])
      | none => (rs, [], [])
    { cr := { cr with finalizers := cr.finalizers.filter (fun f => f ≠ finalizerName) }
      remote := step.1
      trace := step.2.1
      warnings := step.2.2
      result := {} }
  else
    { cr := cr, remote := rs, trace := [], warnings := [], result := {} }

def msgClientFailed : String := "Failed to create n8n client: "

/-- `Reconcile` (lines 72-116): build the client first (failure requeues after
the error backoff with the resource untouched), then the deletion branch, then
finalizer admission, then the sync pass. -/
def Reconcile (r : OperatorCfg) (store : SecretStore) (cr : N8nWorkflowCR)
    (rs : RemoteState) (now : Nat) : PassOut :=
  match getN8nClient r store cr with
  | Except.error e =>
    { cr := setCond cr ConditionTypeReady false ReasonAPIError (msgClientFailed ++ e) now
      remote := rs
      trace := []
      result := { requeueAfter := some errorRequeueInterval, err := some e } }
  | Except.ok _ =>
    if cr.deletionTimestamp then handleDeletion cr rs
    else if finalizerName ∉ cr.finalizers then
      { cr := { cr with finalizers := cr.finalizers ++ [finalizerName] }
        remote := rs
        trace := []
        result := { requeue := true } }
    else reconcileWorkflow cr rs now

/-! ## Derived notions used by the theorems -/

/-- The create/update request body a declared workflow induces. -/
def reqOf (cr : N8nWorkflowCR) : WorkflowCreateRequest :=
  mkCreateRequest (convertToN8nWorkflow cr)

/-- A stored remote workflow whose content fields agree with a request body. -/
def matchesReq (w : Workflow) (r : WorkflowCreateRequest) : Prop :=
  w.name = r.name ∧ w.nodes = r.nodes ∧ w.connections = r.connections ∧
  w.settings = r.settings ∧ w.staticData = r.staticData ∧ w.pinData = r.pinData

/-- Two conditions with the same content apart from the transition time. -/
def condContentEq (x c : Condition) : Prop :=
  x.status = c.status ∧ x.reason = c.reason ∧ x.message = c.message ∧
  x.observedGeneration = c.observedGeneration

/-- A condition list already carrying `c`'s content under `c`'s type: a further
upsert of `c` (at any transition time) leaves it unchanged. -/
def Stable (conds : List Condition) (c : Condition) : Prop :=
  (∃ x ∈ conds, x.type = c.type) ∧ ∀ x ∈ conds, x.type = c.type → condContentEq x c

/-- The declared sync policy is one of the CRD enum values (the admission
schema enforces `Always | CreateOnly | Manual`; empty means defaulted). -/
def validPolicy (cr : N8nWorkflowCR) : Prop :=
  cr.spec.syncPolicy = "" ∨ cr.spec.syncPolicy = SyncPolicyAlways ∨
  cr.spec.syncPolicy = SyncPolicyCreateOnly ∨ cr.spec.syncPolicy = SyncPolicyManual

/-- Modelled from the amended C8 reading of `extractWebhookURL`: the webhook
path one node contributes — `some` only for a webhook-typed node carrying a
string `path` parameter. -/
def webhookNodePath (n : Node) : Option String :=
  match getStr n keyType with
  | some t =>
    if t = webhookNodeType then (getObj n keyParameters).bind (fun p => getStr p keyPath)
    else none
  | none => none

/-- What a successful pass leaves behind, used to analyse the following pass:
the remote state stays well-formed, only the status changed on the resource,
the recorded id resolves to a counterpart whose activation matches the
declared boolean (and, outside `CreateOnly`, whose content matches the
declared payload), and the status fields reflect that counterpart. -/
def PostPass (cr : N8nWorkflowCR) (out : PassOut) (now : Nat) : Prop :=
  out.remote.WF ∧
  out.cr = { cr with status := out.cr.status } ∧
  out.result.err = none ∧
  ∃ id w, out.cr.status.workflowID = some id ∧
    rsGet out.remote id = some w ∧
    w.active = cr.spec.active ∧
    (effectivePolicy cr ≠ SyncPolicyCreateOnly → matchesReq w (reqOf cr)) ∧
    out.cr.status.active = cr.spec.active ∧
    out.cr.status.webhookURL = extractWebhookURL (some w) ∧
    out.cr.status.observedGeneration = cr.generation ∧
    out.cr.status.lastSyncTime = some now ∧
    Stable out.cr.status.conditions
      { type := ConditionTypeReady, status := true, observedGeneration := cr.generation,
        lastTransitionTime := 0, reason := ReasonSyncSucceeded, message := msgSyncedOK } ∧
    Stable out.cr.status.conditions
      { type := ConditionTypeSynced, status := true, observedGeneration := cr.generation,
        lastTransitionTime := 0, reason := ReasonSyncSucceeded, message := msgSyncedN8n }

/-! ## Concrete fixtures for witnesses and counterexamples -/

def nameA : String := "wf-a"

/-- A remote counterpart whose content already equals the declared payload. -/
def wfA : Workflow := { id := 7, name := nameA, active := false }

def rsA : RemoteState := { wfs := [wfA], nextID := 8 }

/-- Declared workflow under `Always` whose payload is unchanged w.r.t. `wfA`. -/
def crA : N8nWorkflowCR :=
  { spec := { syncPolicy := SyncPolicyAlways, active := false, workflow := { name := nameA } }
    status := { workflowID := some 7 } }

def nameB : String := "wf-b"

def wfB : Workflow := { id := 3, name := nameB, active := true }

def rsB : RemoteState := { wfs := [wfB], nextID := 4 }

/-- Declared workflow with defaulted (`Always`) policy matching `wfB`. -/
def crB : N8nWorkflowCR :=
  { spec := { syncPolicy := "", active := true, workflow := { name := nameB } }
    status := { workflowID := some 3 } }

/-- A deletion-marked resource with a recorded remote id and the finalizer. -/
def crDel : N8nWorkflowCR :=
  { deletionTimestamp := true
    finalizers := [finalizerName]
    status := { workflowID := some 5 } }

def rsEmpty : RemoteState := {}

def cr4 : N8nWorkflowCR :=
  { spec := { active := true, workflow := { name := nameA } }
    status := { workflowID := some 2 } }

def ex4 : Workflow := { id := 2, name := nameA, active := false }

def rs4 : RemoteState := { wfs := [ex4], nextID := 3 }

def nameC : String := "wf-c"

def wf5 : Workflow := { id := 9, name := nameC, active := false }

def rs5 : RemoteState := { wfs := [wf5], nextID := 10 }

/-- Declared workflow under `CreateOnly` whose payload differs from `wf5`. -/
def cr5 : N8nWorkflowCR :=
  { spec := { syncPolicy := SyncPolicyCreateOnly, active := false
              workflow := { name := nameC, settings := [(keyName, JValue.null)] } }
    status := { workflowID := some 9 } }

def urlX : String := "http://n8n.example.com:5678"
def keyK : String := "k"

/-- A connection target setting BOTH an explicit URL and the discovery triple. -/
def refC6 : N8nRef := { url := urlX, name := defaultServiceName, ns := nameA, port := 1234 }

def crC6 : N8nWorkflowCR := { spec := { n8nRef := some refC6 } }

def cfgC6 : OperatorCfg := { defaultN8nAPIKey := keyK }

/-- Instance spec with both URL and serviceRef. -/
def instBoth : N8nInstanceSpecCR :=
  { url := urlX, serviceRef := some { name := defaultServiceName, ns := nameA }
    credentials := { secretName := keyK } }

/-- Instance spec with neither URL nor serviceRef. -/
def instNeither : N8nInstanceSpecCR := { credentials := { secretName := keyK } }

/-- Instance spec with only the explicit URL. -/
def instURLOnly : N8nInstanceSpecCR :=
  { url := urlX, credentials := { secretName := keyK } }

/-- Deletion-marked resource whose client construction fails (nothing
configured anywhere). -/
def cr10 : N8nWorkflowCR := { deletionTimestamp := true, finalizers := [finalizerName] }

def cfgEmpty : OperatorCfg := {}

def pathVal : String := "hook"

/-- Webhook-typed node whose `path` parameter is not a string. -/
def nodeNoPath : Node :=
  [(keyType, JValue.str webhookNodeType), (keyParameters, JValue.obj [(keyPath, JValue.num 5)])]

/-- Webhook-typed node with a proper string `path`. -/
def nodeWithPath : Node :=
  [(keyType, JValue.str webhookNodeType),
   (keyParameters, JValue.obj [(keyPath, JValue.str pathVal)])]

/-- First webhook node lacks a usable path, a later one has one. -/
def wfC8 : Workflow := { nodes := [nodeNoPath, nodeWithPath] }

def cursor1 : String := "c1"

def wf9a : Workflow := { id := 1, name := nameA }
def wf9b : Workflow := { id := 2, name := nameB }

def pages9 : List Page := [{ data := [wf9a], nextCursor := cursor1 }, { data := [wf9b] }]

def wf7 : Workflow := { name := nameA, active := true }

/-! ## Projection lemmas -/

@[simp] theorem setCond_spec (cr : N8nWorkflowCR) (a : String) (b : Bool) (c d : String) (n : Nat) :
    (setCond cr a b c d n).spec = cr.spec := rfl

@[simp] theorem setCond_generation (cr : N8nWorkflowCR) (a : String) (b : Bool) (c d : String) (n : Nat) :
    (setCond cr a b c d n).generation = cr.generation := rfl

@[simp] theorem setCond_finalizers (cr : N8nWorkflowCR) (a : String) (b : Bool) (c d : String) (n : Nat) :
    (setCond cr a b c d n).finalizers = cr.finalizers := rfl

@[simp] theorem setCond_deletionTimestamp (cr : N8nWorkflowCR) (a : String) (b : Bool) (c d : String) (n : Nat) :
    (setCond cr a b c d n).deletionTimestamp = cr.deletionTimestamp := rfl

@[simp] theorem setCond_ns (cr : N8nWorkflowCR) (a : String) (b : Bool) (c d : String) (n : Nat) :
    (setCond cr a b c d n).ns = cr.ns := rfl

@[simp] theorem setCond_workflowID (cr : N8nWorkflowCR) (a : String) (b : Bool) (c d : String) (n : Nat) :
    (setCond cr a b c d n).status.workflowID = cr.status.workflowID := rfl

@[simp] theorem setCond_active (cr : N8nWorkflowCR) (a : String) (b : Bool) (c d : String) (n : Nat) :
    (setCond cr a b c d n).status.active = cr.status.active := rfl

@[simp] theorem setCond_lastSyncTime (cr : N8nWorkflowCR) (a : String) (b : Bool) (c d : String) (n : Nat) :
    (setCond cr a b c d n).status.lastSyncTime = cr.status.lastSyncTime := rfl

@[simp] theorem setCond_webhookURL (cr : N8nWorkflowCR) (a : String) (b : Bool) (c d : String) (n : Nat) :
    (setCond cr a b c d n).status.webhookURL = cr.status.webhookURL := rfl

@[simp] theorem setCond_observedGeneration (cr : N8nWorkflowCR) (a : String) (b : Bool) (c d : String) (n : Nat) :
    (setCond cr a b c d n).status.observedGeneration = cr.status.observedGeneration := rfl

@[simp] theorem finalize_trace (cr : N8nWorkflowCR) (rs : RemoteState) (t : List RemoteCall)
    (ex : Workflow) (n : Nat) : (finalize cr rs t ex n).trace = t := rfl

@[simp] theorem finalize_remote (cr : N8nWorkflowCR) (rs : RemoteState) (t : List RemoteCall)
    (ex : Workflow) (n : Nat) : (finalize cr rs t ex n).remote = rs := rfl

@[simp] theorem finalize_result (cr : N8nWorkflowCR) (rs : RemoteState) (t : List RemoteCall)
    (ex : Workflow) (n : Nat) :
    (finalize cr rs t ex n).result = { requeueAfter := some defaultRequeueInterval } := rfl

@[simp] theorem finalize_workflowID (cr : N8nWorkflowCR) (rs : RemoteState) (t : List RemoteCall)
    (ex : Workflow) (n : Nat) :
    (finalize cr rs t ex n).cr.status.workflowID = cr.status.workflowID := rfl

@[simp] theorem finalize_active (cr : N8nWorkflowCR) (rs : RemoteState) (t : List RemoteCall)
    (ex : Workflow) (n : Nat) :
    (finalize cr rs t ex n).cr.status.active = cr.status.active := rfl

@[simp] theorem finalize_webhookURL (cr : N8nWorkflowCR) (rs : RemoteState) (t : List RemoteCall)
    (ex : Workflow) (n : Nat) :
    (finalize cr rs t ex n).cr.status.webhookURL = extractWebhookURL (some ex) := rfl

@[simp] theorem finalize_lastSyncTime (cr : N8nWorkflowCR) (rs : RemoteState) (t : List RemoteCall)
    (ex : Workflow) (n : Nat) :
    (finalize cr rs t ex n).cr.status.lastSyncTime = some n := rfl

@[simp] theorem finalize_observedGeneration (cr : N8nWorkflowCR) (rs : RemoteState) (t : List RemoteCall)
    (ex : Workflow) (n : Nat) :
    (finalize cr rs t ex n).cr.status.observedGeneration = cr.generation := rfl

@[simp] theorem finalize_spec (cr : N8nWorkflowCR) (rs : RemoteState) (t : List RemoteCall)
    (ex : Workflow) (n : Nat) : (finalize cr rs t ex n).cr.spec = cr.spec := rfl

@[simp] theorem finalize_generation (cr : N8nWorkflowCR) (rs : RemoteState) (t : List RemoteCall)
    (ex : Workflow) (n : Nat) : (finalize cr rs t ex n).cr.generation = cr.generation := rfl

@[simp] theorem finalize_finalizers (cr : N8nWorkflowCR) (rs : RemoteState) (t : List RemoteCall)
    (ex : Workflow) (n : Nat) : (finalize cr rs t ex n).cr.finalizers = cr.finalizers := rfl

@[simp] theorem finalize_deletionTimestamp (cr : N8nWorkflowCR) (rs : RemoteState) (t : List RemoteCall)
    (ex : Workflow) (n : Nat) :
    (finalize cr rs t ex n).cr.deletionTimestamp = cr.deletionTimestamp := rfl

@[simp] theorem finalize_ns (cr : N8nWorkflowCR) (rs : RemoteState) (t : List RemoteCall)
    (ex : Workflow) (n : Nat) : (finalize cr rs t ex n).cr.ns = cr.ns := rfl

theorem finalize_conditions (cr : N8nWorkflowCR) (rs : RemoteState) (t : List RemoteCall)
    (ex : Workflow) (n : Nat) :
    (finalize cr rs t ex n).cr.status.conditions =
      setStatusCondition
        (setStatusCondition cr.status.conditions
          { type := ConditionTypeReady, status := true, observedGeneration := cr.generation,
            lastTransitionTime := n, reason := ReasonSyncSucceeded, message := msgSyncedOK })
        { type := ConditionTypeSynced, status := true, observedGeneration := cr.generation,
          lastTransitionTime := n, reason := ReasonSyncSucceeded, message := msgSyncedN8n } := rfl

@[simp] theorem errOut_trace (cr : N8nWorkflowCR) (rs : RemoteState) (t : List RemoteCall)
    (m : String) : (errOut cr rs t m).trace = t := rfl

@[simp] theorem errOut_result (cr : N8nWorkflowCR) (rs : RemoteState) (t : List RemoteCall)
    (m : String) :
    (errOut cr rs t m).result = { requeueAfter := some errorRequeueInterval, err := some m } := rfl

/-! ## Trace counting -/

theorem countUpdates_append (a b : List RemoteCall) :
    countUpdates (a ++ b) = countUpdates a + countUpdates b := by
  simp [countUpdates, List.filter_append]

theorem countActivates_append (a b : List RemoteCall) :
    countActivates (a ++ b) = countActivates a + countActivates b := by
  simp [countActivates, List.filter_append]

theorem countDeactivates_append (a b : List RemoteCall) :
    countDeactivates (a ++ b) = countDeactivates a + countDeactivates b := by
  simp [countDeactivates, List.filter_append]

theorem countCreates_append (a b : List RemoteCall) :
    countCreates (a ++ b) = countCreates a + countCreates b := by
  simp [countCreates, List.filter_append]

theorem countDeletes_append (a b : List RemoteCall) :
    countDeletes (a ++ b) = countDeletes a + countDeletes b := by
  simp [countDeletes, List.filter_append]

/-- The counterpart-resolution stage only reads (get by id, find by name). -/
theorem resolveExisting_counts (cr : N8nWorkflowCR) (rs : RemoteState) :
    countUpdates (resolveExisting cr rs).2 = 0 ∧
    countCreates (resolveExisting cr rs).2 = 0 ∧
    countActivates (resolveExisting cr rs).2 = 0 ∧
    countDeactivates (resolveExisting cr rs).2 = 0 ∧
    countDeletes (resolveExisting cr rs).2 = 0 := by
  unfold resolveExisting
  cases h1 : cr.status.workflowID with
  | none =>
    simp [countUpdates, countCreates, countActivates, countDeactivates, countDeletes,
          isUpdateCall, isCreate, isActivate, isDeactivate, isDelete, List.filter]
  | some id =>
    cases h2 : rsGet rs id <;>
      simp [h2, countUpdates, countCreates, countActivates, countDeactivates, countDeletes,
            isUpdateCall, isCreate, isActivate, isDeactivate, isDelete, List.filter]

/-- The shape of the activation stage's call trace: at most one activate or
deactivate appended, decided by the declared boolean against the fresh
counterpart's boolean. -/
theorem afterUpsert_trace (cr : N8nWorkflowCR) (rs : RemoteState) (t : List RemoteCall)
    (ex : Workflow) (n : Nat) :
    (afterUpsert cr rs t ex n).trace =
      if cr.spec.active && !ex.active then t ++ [RemoteCall.activate (cr.status.workflowID.getD 0)]
      else if !cr.spec.active && ex.active then t ++ [RemoteCall.deactivate (cr.status.workflowID.getD 0)]
      else t := by
  unfold afterUpsert
  split
  · cases h : serverSetActive rs (cr.status.workflowID.getD 0) true with
    | mk rs1 o => cases o <;> simp [h]
  · split
    · cases h : serverSetActive rs (cr.status.workflowID.getD 0) false with
      | mk rs1 o => cases o <;> simp [h]
    · simp

/-- The activation stage never touches the recorded id. -/
theorem afterUpsert_workflowID (cr : N8nWorkflowCR) (rs : RemoteState) (t : List RemoteCall)
    (ex : Workflow) (n : Nat) :
    (afterUpsert cr rs t ex n).cr.status.workflowID = cr.status.workflowID := by
  unfold afterUpsert
  split
  · cases h : serverSetActive rs (cr.status.workflowID.getD 0) true with
    | mk rs1 o => cases o <;> simp [h, errOut]
  · split
    · cases h : serverSetActive rs (cr.status.workflowID.getD 0) false with
      | mk rs1 o => cases o <;> simp [h, errOut]
    · simp

/-! ## C8 — webhook path extraction -/

/-- The scan returns the path contributed by the first node that yields one
under `webhookNodePath` (webhook-typed nodes without a usable path are
skipped). -/
theorem extractWebhookLoop_eq (nodes : List Node) :
    extractWebhookLoop nodes =
      match nodes.findSome? webhookNodePath with
      | some p => webhookPathStem ++ p
      | none => "" := by
  induction nodes with
  | nil => rfl
  | cons n rest ih =>
    rw [List.findSome?_cons]
    cases h1 : getStr n keyType with
    | none =>
      have hw : webhookNodePath n = none := by simp [webhookNodePath, h1]
      simp [extractWebhookLoop, h1, hw, ih]
    | some t =>
      by_cases ht : t = webhookNodeType
      · cases h2 : getObj n keyParameters with
        | none =>
          have hw : webhookNodePath n = none := by simp [webhookNodePath, h1, ht, h2]
          simp [extractWebhookLoop, h1, ht, hw, h2, ih]
        | some params =>
          cases h3 : getStr params keyPath with
          | none =>
            have hw : webhookNodePath n = none := by simp [webhookNodePath, h1, ht, h2, h3]
            simp [extractWebhookLoop, h1, ht, hw, h2, h3, ih]
          | some p =>
            have hw : webhookNodePath n = some p := by simp [webhookNodePath, h1, ht, h2, h3]
            simp [extractWebhookLoop, h1, ht, hw, h2, h3]
      · have hw : webhookNodePath n = none := by simp [webhookNodePath, h1, ht]
        simp [extractWebhookLoop, h1, ht, hw, ih]

/-- C8 (amended): webhook path extraction returns `"/webhook/" ++ path` from
the first node whose type is the webhook trigger AND that carries a string
`path` parameter — webhook-typed nodes without a usable path are skipped, and
the result is empty when the workflow is nil, node-less, or no webhook node
carries a string path. -/
theorem extractWebhookURL_spec (wf : Option Workflow) :
    extractWebhookURL wf =
      match wf.bind (fun w => w.nodes.findSome? webhookNodePath) with
      | some p => webhookPathStem ++ p
      | none => "" := by
  cases wf with
  | none => rfl
  | some w =>
    by_cases h : w.nodes.isEmpty
    · have hn : w.nodes = [] := by simpa using h
      simp [extractWebhookURL, h, hn]
    · simp [extractWebhookURL, h, extractWebhookLoop_eq]

/-- C8 counterexample: the first webhook-typed node (`nodeNoPath`) lacks a
string path parameter, yet extraction does not return empty — it takes the
path from the later webhook node, contradicting the claim as stated. -/
theorem extractWebhookURL_counterexample :
    getStr nodeNoPath keyType = some webhookNodeType ∧
    webhookNodePath nodeNoPath = none ∧
    extractWebhookURL (some wfC8) = webhookPathStem ++ pathVal ∧
    extractWebhookURL (some wfC8) ≠ "" := by
  refine ⟨rfl, rfl, rfl, by decide⟩

/-! ## C9 — find-by-name over the drained list -/

/-- The Go range loop is `List.find?` with exact name equality. -/
theorem findFirstByName_eq_find? (l : List Workflow) (name : String) :
    findFirstByName l name = l.find? (fun w => w.name == name) := by
  induction l with
  | nil => rfl
  | cons w rest ih =>
    by_cases h : w.name = name
    · simp [findFirstByName, h, List.find?_cons]
    · simp [findFirstByName, h, List.find?_cons, ih]

/-- When every non-final page carries a cursor, draining concatenates all
pages in order. -/
theorem ListWorkflows_flatten (pages : List Page)
    (h : ∀ p ∈ pages.dropLast, p.nextCursor ≠ "") :
    ListWorkflows pages = (pages.map Page.data).flatten := by
  induction pages with
  | nil => rfl
  | cons p rest ih =>
    cases rest with
    | nil => simp [ListWorkflows]
    | cons q rest2 =>
      have hp : p.nextCursor ≠ "" := h p (by simp [List.dropLast])
      have hrest : ∀ r ∈ (q :: rest2).dropLast, r.nextCursor ≠ "" := by
        intro r hr
        exact h r (by simp [List.dropLast, hr])
      show p.data ++ (if p.nextCursor = "" then [] else ListWorkflows (q :: rest2)) = _
      rw [if_neg hp, ih hrest]
      simp

/-- C9: find-by-name scans the fully drained page chain linearly, matches on
exact equality, returns the first match, and yields a non-error "not found"
(`ok none`) when absent; when every non-final page carries a cursor the
drained list is exactly the in-order concatenation of all pages. -/
theorem GetWorkflowByName_spec (pages : List Page) (name : String) :
    GetWorkflowByName pages name =
      Except.ok ((ListWorkflows pages).find? (fun w => w.name == name)) ∧
    ((∀ w ∈ ListWorkflows pages, w.name ≠ name) →
      GetWorkflowByName pages name = Except.ok none) ∧
    (∀ w, GetWorkflowByName pages name = Except.ok (some w) →
      w.name = name ∧ w ∈ ListWorkflows pages) ∧
    ((∀ p ∈ pages.dropLast, p.nextCursor ≠ "") →
      ListWorkflows pages = (pages.map Page.data).flatten) := by
  have hq : GetWorkflowByName pages name =
      Except.ok ((ListWorkflows pages).find? (fun w => w.name == name)) := by
    simp [GetWorkflowByName, findFirstByName_eq_find?]
  refine ⟨hq, ?_, ?_, ?_⟩
  · intro h
    rw [hq]
    have : (ListWorkflows pages).find? (fun w => w.name == name) = none := by
      rw [List.find?_eq_none]
      intro x hx
      simp [h x hx]
    rw [this]
  · intro w hw
    rw [hq] at hw
    have hfind : (ListWorkflows pages).find? (fun w => w.name == name) = some w := by
      injection hw
    refine ⟨?_, List.mem_of_find?_eq_some hfind⟩
    have := List.find?_some hfind
    simpa using this
  · exact ListWorkflows_flatten pages

/-- C9 witness: concrete two-page listing, drained in order across the
cursor. -/
theorem GetWorkflowByName_witness :
    (∀ p ∈ pages9.dropLast, p.nextCursor ≠ "") ∧
    ListWorkflows pages9 = (pages9.map Page.data).flatten ∧
    GetWorkflowByName pages9 nameB = Except.ok (some wf9b) := by
  refine ⟨by decide, ?_, ?_⟩
  · exact (GetWorkflowByName_spec pages9 nameB).2.2.2 (by decide)
  · rw [(GetWorkflowByName_spec pages9 nameB).1]
    rfl

/-! ## C7 — create/update bodies omit activation -/

/-- C7: the request body for create and update is insensitive to the
in-memory activation boolean, its serialization never carries an `active`
key, and its keys are drawn only from the six content fields. -/
theorem createRequest_omits_active (w : Workflow) (b : Bool) :
    mkCreateRequest { w with active := b } = mkCreateRequest w ∧
    keyActive ∉ (encodeCreateRequest (mkCreateRequest w)).map Prod.fst ∧
    (encodeCreateRequest (mkCreateRequest w)).map Prod.fst ⊆
      [keyName, keyNodes, keyConnections, keySettings, keyStaticData, keyPinData] := by
  refine ⟨rfl, ?_, ?_⟩
  · unfold encodeCreateRequest
    split_ifs <;> simp <;> decide
  · unfold encodeCreateRequest
    split_ifs <;> simp <;> decide

/-- C7 witness: concrete evaluation on a workflow carrying `active = true`. -/
theorem createRequest_omits_active_witness :
    mkCreateRequest { wf7 with active := false } = mkCreateRequest wf7 ∧
    keyActive ∉ (encodeCreateRequest (mkCreateRequest wf7)).map Prod.fst := by
  exact ⟨(createRequest_omits_active wf7 false).1, (createRequest_omits_active wf7 false).2.1⟩

/-! ## C6 — target resolution -/

/-- C6 (amended): instance-level validation (`validateInstance`) rejects a
connection target setting both the explicit URL and the discovery reference,
rejects one setting neither, and accepts either single choice — URL only, or
serviceRef only with its name and namespace present — together with a named
credentials secret; workflow-level resolution (`getN8nClient`) does not reject
a both-set target: the explicit URL takes precedence over the discovery
triple, and resolution fails when the referenced secret cannot be fetched,
when the fetched secret lacks the key, or when the final base URL or API key
resolves empty. -/
theorem targetResolution_spec :
    (∀ spec : N8nInstanceSpecCR, spec.url ≠ "" → spec.serviceRef.isSome →
      validateInstance spec = some errBothSet) ∧
    (∀ spec : N8nInstanceSpecCR, spec.url = "" → spec.serviceRef = none →
      validateInstance spec = some errNeitherSet) ∧
    (∀ (spec : N8nInstanceSpecCR) (sr : ServiceRef), spec.url = "" →
      spec.serviceRef = some sr → sr.name ≠ "" → sr.ns ≠ "" →
      spec.credentials.secretName ≠ "" → validateInstance spec = none) ∧
    (∀ spec : N8nInstanceSpecCR, spec.url ≠ "" → spec.serviceRef = none →
      spec.credentials.secretName ≠ "" → validateInstance spec = none) ∧
    (∀ (r : OperatorCfg) (store : SecretStore) (cr : N8nWorkflowCR) (ref : N8nRef),
      cr.spec.n8nRef = some ref → ref.url ≠ "" → ref.secretRef = none →
      r.defaultN8nAPIKey ≠ "" →
      getN8nClient r store cr = Except.ok { baseURL := ref.url, apiKey := r.defaultN8nAPIKey }) ∧
    (∀ (r : OperatorCfg) (store : SecretStore) (cr : N8nWorkflowCR) (ref : N8nRef)
      (sref : SecretKeyRef),
      cr.spec.n8nRef = some ref → ref.secretRef = some sref →
      store.lookup ((if ref.ns = "" then cr.ns else ref.ns), sref.name) = none →
      getN8nClient r store cr = Except.error errSecretFetch) ∧
    (∀ (r : OperatorCfg) (store : SecretStore) (cr : N8nWorkflowCR) (ref : N8nRef)
      (sref : SecretKeyRef) (data : List (String × String)),
      cr.spec.n8nRef = some ref → ref.secretRef = some sref →
      store.lookup ((if ref.ns = "" then cr.ns else ref.ns), sref.name) = some data →
      data.lookup (if sref.key = "" then defaultSecretKey else sref.key) = none →
      getN8nClient r store cr =
        Except.error (errSecretKeyMissing ++ (if sref.key = "" then defaultSecretKey else sref.key))) ∧
    (∀ (r : OperatorCfg) (store : SecretStore) (cr : N8nWorkflowCR),
      cr.spec.n8nRef = none → r.defaultN8nURL = "" → r.envN8nURL = "" →
      getN8nClient r store cr = Except.error errNoURL) ∧
    (∀ (r : OperatorCfg) (store : SecretStore) (cr : N8nWorkflowCR),
      cr.spec.n8nRef = none → r.defaultN8nURL ≠ "" →
      r.defaultN8nAPIKey = "" → r.envN8nAPIKey = "" →
      getN8nClient r store cr = Except.error errNoAPIKey) := by
  refine ⟨?_, ?_, ?_, ?_, ?_, ?_, ?_, ?_, ?_⟩
  · intro spec h1 h2
    simp [validateInstance, h1, h2]
  · intro spec h1 h2
    simp [validateInstance, h1, h2]
  · intro spec sr h1 h2 h3 h4 h5
    simp [validateInstance, h1, h2, h3, h4, h5]
  · intro spec h1 h2 h3
    simp [validateInstance, h1, h2, h3]
  · intro r store cr ref h1 h2 h3 h4
    simp [getN8nClient, h1, h2, h3, h4]
  · intro r store cr ref sref h1 h2 h3
    simp [getN8nClient, h1, h2, h3]
  · intro r store cr ref sref data h1 h2 h3 h4
    simp [getN8nClient, h1, h2, h3, h4]
  · intro r store cr h1 h2 h3
    simp [getN8nClient, h1, h2, h3]
  · intro r store cr h1 h2 h3 h4
    simp [getN8nClient, h1, h2, h3, h4]

/-- C6 counterexample: a workflow-level connection target that sets BOTH the
explicit URL and the full discovery triple resolves successfully (the URL
wins); the claim demands a `ConfigurationError` for every such target. -/
theorem targetResolution_counterexample :
    refC6.url ≠ "" ∧ refC6.name ≠ "" ∧ refC6.ns ≠ "" ∧ refC6.port ≠ 0 ∧
    getN8nClient cfgC6 [] crC6 = Except.ok { baseURL := urlX, apiKey := keyK } := by
  refine ⟨by decide, by decide, by decide, by decide, rfl⟩

/-- C6 witness: both-set and neither-set instance targets are rejected, a
URL-only target with a named secret is accepted. -/
theorem targetResolution_witness :
    instBoth.url ≠ "" ∧ instBoth.serviceRef.isSome ∧
    validateInstance instBoth = some errBothSet ∧
    instNeither.url = "" ∧ instNeither.serviceRef = none ∧
    validateInstance instNeither = some errNeitherSet ∧
    instURLOnly.url ≠ "" ∧ instURLOnly.serviceRef = none ∧
    validateInstance instURLOnly = none := by
  have h := targetResolution_spec
  refine ⟨by decide, by decide, h.1 instBoth (by decide) (by decide), rfl, rfl,
          h.2.1 instNeither rfl rfl, by decide, rfl,
          h.2.2.2.1 instURLOnly (by decide) rfl (by decide)⟩

/-! ## C10 — client failure blocks deletion -/

/-- C10: when client construction fails, the pass stops before the deletion
branch — no remote call, no finalizer change, error surfaced with the error
backoff — so physical deletion stays blocked. -/
theorem Reconcile_clientError_blocksDeletion (r : OperatorCfg) (store : SecretStore)
    (cr : N8nWorkflowCR) (rs : RemoteState) (now : Nat) (e : String)
    (hc : getN8nClient r store cr = Except.error e) (hd : cr.deletionTimestamp = true) :
    (Reconcile r store cr rs now).trace = [] ∧
    (Reconcile r store cr rs now).remote = rs ∧
    (Reconcile r store cr rs now).cr.finalizers = cr.finalizers ∧
    (Reconcile r store cr rs now).result.err = some e ∧
    (Reconcile r store cr rs now).result.requeueAfter = some errorRequeueInterval := by
  unfold Reconcile
  rw [hc]
  exact ⟨rfl, rfl, rfl, rfl, rfl⟩

/-- C10 witness: a deletion-marked resource with nothing configured anywhere
fails client construction and keeps its finalizer. -/
theorem Reconcile_clientError_witness :
    getN8nClient cfgEmpty [] cr10 = Except.error errNoURL ∧
    cr10.deletionTimestamp = true ∧
    (Reconcile cfgEmpty [] cr10 rsEmpty 0).trace = [] ∧
    (Reconcile cfgEmpty [] cr10 rsEmpty 0).cr.finalizers = cr10.finalizers ∧
    (Reconcile cfgEmpty [] cr10 rsEmpty 0).result.err = some errNoURL := by
  have h := Reconcile_clientError_blocksDeletion cfgEmpty [] cr10 rsEmpty 0 errNoURL rfl rfl
  exact ⟨rfl, rfl, h.1, h.2.2.1, h.2.2.2.1⟩

/-! ## C3 — deletion cleanup -/

/-- Substring containment is preserved by prepending. -/
theorem listContainsSub_append (pat xs ys : List Char)
    (h : listContainsSub pat ys = true) :
    listContainsSub pat (xs ++ ys) = true := by
  induction xs with
  | nil => simpa using h
  | cons c rest ih =>
    show (pat.isPrefixOf (c :: (rest ++ ys)) || listContainsSub pat (rest ++ ys)) = true
    rw [ih]
    simp

/-- The delete-not-found error text is always recognised by the
`handleDeletion` not-found test. -/
theorem errIsNotFound_deleteNotFoundMsg (id : Nat) :
    errIsNotFound (deleteNotFoundMsg id) = true := by
  unfold errIsNotFound strContains deleteNotFoundMsg
  have hdata : (deleteFailA ++ toString id ++ deleteFailB).data
      = (deleteFailA ++ toString id).data ++ deleteFailB.data := String.data_append _ _
  have hsuf : listContainsSub notFoundLower.data deleteFailB.data = true := by decide
  have h2 : listContainsSub notFoundLower.data
      ((deleteFailA ++ toString id).data ++ deleteFailB.data) = true :=
    listContainsSub_append _ _ _ hsuf
  rw [hdata, h2]
  simp

/-- C3: with the finalizer present, a recorded remote id produces exactly one
delete call before the finalizer is removed, a not-found answer (unknown id on
the remote) is treated as success — finalizer removed, no error returned, no
warning emitted — and without a recorded id the finalizer is removed
immediately with no remote call. -/
theorem handleDeletion_spec (cr : N8nWorkflowCR) (rs : RemoteState)
    (hf : finalizerName ∈ cr.finalizers) :
    (∀ id, cr.status.workflowID = some id →
      (handleDeletion cr rs).trace = [RemoteCall.delete id] ∧
      finalizerName ∉ (handleDeletion cr rs).cr.finalizers ∧
      (handleDeletion cr rs).result = {} ∧
      (rsGet rs id = none → (handleDeletion cr rs).warnings = [])) ∧
    (cr.status.workflowID = none →
      (handleDeletion cr rs).trace = [] ∧
      finalizerName ∉ (handleDeletion cr rs).cr.finalizers ∧
      (handleDeletion cr rs).result = {} ∧
      (handleDeletion cr rs).warnings = []) := by
  constructor
  · intro id hid
    cases hget : rsGet rs id with
    | some w =>
      simp [handleDeletion, hf, hid, serverDelete, hget, List.mem_filter]
    | none =>
      simp [handleDeletion, hf, hid, serverDelete, hget,
            errIsNotFound_deleteNotFoundMsg, List.mem_filter]
  · intro hid
    simp [handleDeletion, hf, hid, List.mem_filter]

/-- C3 witness: deletion-marked resource with recorded id 5 against an empty
remote — one delete call, not-found swallowed, finalizer removed. -/
theorem handleDeletion_witness :
    finalizerName ∈ crDel.finalizers ∧
    (handleDeletion crDel rsEmpty).trace = [RemoteCall.delete 5] ∧
    finalizerName ∉ (handleDeletion crDel rsEmpty).cr.finalizers ∧
    (handleDeletion crDel rsEmpty).result = {} ∧
    (handleDeletion crDel rsEmpty).warnings = [] := by
  have hf : finalizerName ∈ crDel.finalizers := by decide
  have h := (handleDeletion_spec crDel rsEmpty hf).1 5 rfl
  exact ⟨hf, h.1, h.2.1, h.2.2.1, h.2.2.2 rfl⟩

/-! ## Upsert-stage characterizations -/

theorem reconcileWorkflow_eq_afterUpsert (cr : N8nWorkflowCR) (rs : RemoteState) (now : Nat)
    (hman : effectivePolicy cr ≠ SyncPolicyManual) :
    reconcileWorkflow cr rs now =
      match upsertPhase cr rs now with
      | Sum.inl p => p
      | Sum.inr (cr1, rs1, t1, ex) => afterUpsert cr1 rs1 t1 ex now := by
  unfold reconcileWorkflow
  rw [if_neg hman]

theorem upsertPhase_create (cr : N8nWorkflowCR) (rs : RemoteState) (now : Nat)
    (t : List RemoteCall) (hre : resolveExisting cr rs = (none, t)) :
    upsertPhase cr rs now =
      Sum.inr ({ cr with status := { cr.status with workflowID := some (serverCreate rs (reqOf cr)).2.id } },
               (serverCreate rs (reqOf cr)).1, t ++ [RemoteCall.create], (serverCreate rs (reqOf cr)).2) := by
  unfold upsertPhase
  rw [hre]
  simp [reqOf]

theorem upsertPhase_found_createOnly (cr : N8nWorkflowCR) (rs : RemoteState) (now : Nat)
    (w : Workflow) (t : List RemoteCall) (hre : resolveExisting cr rs = (some w, t))
    (hco : effectivePolicy cr = SyncPolicyCreateOnly) :
    upsertPhase cr rs now =
      Sum.inr ({ cr with status := { cr.status with workflowID := some w.id } }, rs, t, w) := by
  unfold upsertPhase
  rw [hre]
  simp [hco]

theorem upsertPhase_found_update (cr : N8nWorkflowCR) (rs : RemoteState) (now : Nat)
    (w : Workflow) (t : List RemoteCall) (hre : resolveExisting cr rs = (some w, t))
    (hco : effectivePolicy cr ≠ SyncPolicyCreateOnly) :
    upsertPhase cr rs now =
      match serverUpdate rs w.id (reqOf cr) with
      | (rs1, some updated) =>
        Sum.inr ({ cr with status := { cr.status with workflowID := some w.id } },
                 rs1, t ++ [RemoteCall.update w.id], updated)
      | (rs1, none) =>
        Sum.inl (errOut
          (setCond { cr with status := { cr.status with workflowID := some w.id } }
            ConditionTypeReady false ReasonSyncFailed msgUpdateFailed now)
          rs1 (t ++ [RemoteCall.update w.id]) msgUpdateFailed) := by
  unfold upsertPhase
  rw [hre]
  simp [hco, needsUpdate, reqOf]

theorem countUpdates_eq_zero_iff (t : List RemoteCall) :
    countUpdates t = 0 ↔ ∀ a ∈ t, isUpdateCall a = false := by
  simp [countUpdates, List.length_eq_zero, List.filter_eq_nil_iff]

theorem countActivates_eq_zero_iff (t : List RemoteCall) :
    countActivates t = 0 ↔ ∀ a ∈ t, isActivate a = false := by
  simp [countActivates, List.length_eq_zero, List.filter_eq_nil_iff]

theorem countDeactivates_eq_zero_iff (t : List RemoteCall) :
    countDeactivates t = 0 ↔ ∀ a ∈ t, isDeactivate a = false := by
  simp [countDeactivates, List.length_eq_zero, List.filter_eq_nil_iff]

/-! ## C1 — `needsUpdate` degenerates to always-update -/

/-- C1 (amended): `needsUpdate` returns `true` unconditionally — no content
fingerprint is computed, compared, or persisted (the status carries no
fingerprint field) — so under effective policy `Always` every pass that finds
an existing remote counterpart issues exactly one update call, whether or not
the payload changed. -/
theorem needsUpdate_always_update (cr : N8nWorkflowCR) (rs : RemoteState) (now : Nat)
    (w : Workflow) (t : List RemoteCall)
    (hp : effectivePolicy cr = SyncPolicyAlways)
    (hre : resolveExisting cr rs = (some w, t)) :
    (∀ e d : Workflow, needsUpdate e d = true) ∧
    countUpdates (reconcileWorkflow cr rs now).trace = 1 := by
  refine ⟨fun _ _ => rfl, ?_⟩
  have ht : countUpdates t = 0 := by
    have h0 := (resolveExisting_counts cr rs).1
    rw [hre] at h0
    exact h0
  have hman : effectivePolicy cr ≠ SyncPolicyManual := by rw [hp]; decide
  have hco : effectivePolicy cr ≠ SyncPolicyCreateOnly := by rw [hp]; decide
  rw [reconcileWorkflow_eq_afterUpsert cr rs now hman,
      upsertPhase_found_update cr rs now w t hre hco]
  cases hsu : serverUpdate rs w.id (reqOf cr) with
  | mk rs1 o =>
    cases o with
    | some updated =>
      simp only [hsu]
      rw [afterUpsert_trace]
      split_ifs <;>
        simp [countUpdates_append, ht, countUpdates, isUpdateCall, List.filter] <;>
        exact (countUpdates_eq_zero_iff t).mp ht
    | none =>
      simp only [hsu]
      rw [errOut_trace]
      simp [countUpdates_append, ht, countUpdates, isUpdateCall, List.filter]
      exact (countUpdates_eq_zero_iff t).mp ht

/-- C1 witness: a pass over `crA`/`rsA` (unchanged payload) still updates. -/
theorem needsUpdate_always_update_witness :
    effectivePolicy crA = SyncPolicyAlways ∧
    resolveExisting crA rsA = (some wfA, [RemoteCall.getById 7]) ∧
    countUpdates (reconcileWorkflow crA rsA 0).trace = 1 := by
  refine ⟨rfl, rfl, (needsUpdate_always_update crA rsA 0 wfA [RemoteCall.getById 7] rfl rfl).2⟩

/-- C1 counterexample: with an unchanged payload the claim says the pass after
the first update makes no update call; the code makes one on every pass. -/
theorem needsUpdate_fingerprint_counterexample :
    countUpdates (reconcileWorkflow crA rsA 0).trace = 1 ∧
    countUpdates (reconcileWorkflow (reconcileWorkflow crA rsA 0).cr
        (reconcileWorkflow crA rsA 0).remote 1).trace = 1 ∧
    countUpdates (reconcileWorkflow (reconcileWorkflow crA rsA 0).cr
        (reconcileWorkflow crA rsA 0).remote 1).trace ≠ 0 := by
  refine ⟨rfl, rfl, by decide⟩

/-! ## C5 — CreateOnly never updates -/

/-- C5: under effective policy `CreateOnly`, no pass ever issues an update
call, and when a remote counterpart is found its identifier is still recorded
in status. -/
theorem createOnly_never_updates (cr : N8nWorkflowCR) (rs : RemoteState) (now : Nat)
    (hp : effectivePolicy cr = SyncPolicyCreateOnly) :
    countUpdates (reconcileWorkflow cr rs now).trace = 0 ∧
    (∀ w t, resolveExisting cr rs = (some w, t) →
      (reconcileWorkflow cr rs now).cr.status.workflowID = some w.id) := by
  have hman : effectivePolicy cr ≠ SyncPolicyManual := by rw [hp]; decide
  constructor
  · rw [reconcileWorkflow_eq_afterUpsert cr rs now hman]
    cases hre : resolveExisting cr rs with
    | mk o t =>
      have ht : countUpdates t = 0 := by
        have h0 := (resolveExisting_counts cr rs).1
        rw [hre] at h0
        exact h0
      cases o with
      | some w =>
        rw [upsertPhase_found_createOnly cr rs now w t hre hp]
        simp only []
        rw [afterUpsert_trace]
        split_ifs <;>
          simp [countUpdates_append, ht, countUpdates, isUpdateCall, List.filter] <;>
          exact (countUpdates_eq_zero_iff t).mp ht
      | none =>
        rw [upsertPhase_create cr rs now t hre]
        simp only []
        rw [afterUpsert_trace]
        split_ifs <;>
          simp [countUpdates_append, ht, countUpdates, isUpdateCall, List.filter] <;>
          exact (countUpdates_eq_zero_iff t).mp ht
  · intro w t hre
    rw [reconcileWorkflow_eq_afterUpsert cr rs now hman,
        upsertPhase_found_createOnly cr rs now w t hre hp]
    simp only []
    rw [afterUpsert_workflowID]

/-- C5 witness: drifted payload under `CreateOnly` — no update call, id
recorded. -/
theorem createOnly_never_updates_witness :
    effectivePolicy cr5 = SyncPolicyCreateOnly ∧
    countUpdates (reconcileWorkflow cr5 rs5 0).trace = 0 ∧
    (reconcileWorkflow cr5 rs5 0).cr.status.workflowID = some wf5.id := by
  have h := createOnly_never_updates cr5 rs5 0 rfl
  exact ⟨rfl, h.1, h.2 wf5 [RemoteCall.getById 9] rfl⟩

/-! ## C4 — activation convergence -/

/-- Any successful upsert stage contributes no activation calls to the trace. -/
theorem upsertPhase_inr_counts (cr : N8nWorkflowCR) (rs : RemoteState) (now : Nat)
    (cr1 : N8nWorkflowCR) (rs1 : RemoteState) (t1 : List RemoteCall) (ex1 : Workflow)
    (hup : upsertPhase cr rs now = Sum.inr (cr1, rs1, t1, ex1)) :
    countActivates t1 = 0 ∧ countDeactivates t1 = 0 := by
  cases hre : resolveExisting cr rs with
  | mk o t =>
    have hcounts := resolveExisting_counts cr rs
    rw [hre] at hcounts
    cases o with
    | none =>
      rw [upsertPhase_create cr rs now t hre] at hup
      simp only [Sum.inr.injEq, Prod.mk.injEq] at hup
      obtain ⟨-, -, ht1, -⟩ := hup
      subst ht1
      have hA : countActivates t = 0 := hcounts.2.2.1
      have hD : countDeactivates t = 0 := hcounts.2.2.2.1
      refine ⟨?_, ?_⟩
      · rw [countActivates_append, hA]
        rfl
      · rw [countDeactivates_append, hD]
        rfl
    | some w =>
      by_cases hco : effectivePolicy cr = SyncPolicyCreateOnly
      · rw [upsertPhase_found_createOnly cr rs now w t hre hco] at hup
        simp only [Sum.inr.injEq, Prod.mk.injEq] at hup
        obtain ⟨-, -, ht1, -⟩ := hup
        subst ht1
        exact ⟨hcounts.2.2.1, hcounts.2.2.2.1⟩
      · rw [upsertPhase_found_update cr rs now w t hre hco] at hup
        cases hsu : serverUpdate rs w.id (reqOf cr) with
        | mk rs2 o2 =>
          rw [hsu] at hup
          cases o2 with
          | some u =>
            simp only [Sum.inr.injEq, Prod.mk.injEq] at hup
            obtain ⟨-, -, ht1, -⟩ := hup
            subst ht1
            have hA : countActivates t = 0 := hcounts.2.2.1
            have hD : countDeactivates t = 0 := hcounts.2.2.2.1
            refine ⟨?_, ?_⟩
            · rw [countActivates_append, hA]
              rfl
            · rw [countDeactivates_append, hD]
              rfl
          | none => simp at hup

/-- C4: the activation stage compares the declared boolean against the fresh
counterpart's boolean: true-vs-false appends exactly one activate call,
false-vs-true exactly one deactivate call, equality appends nothing and
records the remote boolean as-is; the trace never depends on the locally
cached `Status.Active`; and a pass that reaches activation is exactly this
stage applied after an upsert stage that contributes no activation calls. -/
theorem activation_convergence_spec (cr : N8nWorkflowCR) (rs : RemoteState)
    (t : List RemoteCall) (ex : Workflow) (now : Nat) :
    (cr.spec.active = true → ex.active = false →
      countActivates (afterUpsert cr rs t ex now).trace = countActivates t + 1 ∧
      countDeactivates (afterUpsert cr rs t ex now).trace = countDeactivates t) ∧
    (cr.spec.active = false → ex.active = true →
      countDeactivates (afterUpsert cr rs t ex now).trace = countDeactivates t + 1 ∧
      countActivates (afterUpsert cr rs t ex now).trace = countActivates t) ∧
    (cr.spec.active = ex.active →
      countActivates (afterUpsert cr rs t ex now).trace = countActivates t ∧
      countDeactivates (afterUpsert cr rs t ex now).trace = countDeactivates t ∧
      (afterUpsert cr rs t ex now).cr.status.active = ex.active) ∧
    (∀ b, (afterUpsert { cr with status := { cr.status with active := b } } rs t ex now).trace =
      (afterUpsert cr rs t ex now).trace) ∧
    (effectivePolicy cr ≠ SyncPolicyManual →
      ∀ cr1 rs1 t1 ex1, upsertPhase cr rs now = Sum.inr (cr1, rs1, t1, ex1) →
        reconcileWorkflow cr rs now = afterUpsert cr1 rs1 t1 ex1 now ∧
        countActivates t1 = 0 ∧ countDeactivates t1 = 0) := by
  refine ⟨?_, ?_, ?_, ?_, ?_⟩
  · intro hsp hex
    rw [afterUpsert_trace]
    simp [hsp, hex, countActivates_append, countDeactivates_append,
          countActivates, countDeactivates, isActivate, isDeactivate, List.filter]
  · intro hsp hex
    rw [afterUpsert_trace]
    simp [hsp, hex, countActivates_append, countDeactivates_append,
          countActivates, countDeactivates, isActivate, isDeactivate, List.filter]
  · intro heq
    have h1 : (cr.spec.active && !ex.active) = false := by
      rw [heq]; cases ex.active <;> rfl
    have h2 : (!cr.spec.active && ex.active) = false := by
      rw [heq]; cases ex.active <;> rfl
    refine ⟨?_, ?_, ?_⟩
    · rw [afterUpsert_trace, h1, h2]; simp
    · rw [afterUpsert_trace, h1, h2]; simp
    · unfold afterUpsert
      rw [h1, h2]
      simp
  · intro b
    rw [afterUpsert_trace, afterUpsert_trace]
  · intro hman cr1 rs1 t1 ex1 hup
    refine ⟨?_, upsertPhase_inr_counts cr rs now cr1 rs1 t1 ex1 hup⟩
    rw [reconcileWorkflow_eq_afterUpsert cr rs now hman, hup]

/-- C4 witness: declared-active true against a fresh inactive counterpart
yields exactly one activate call. -/
theorem activation_convergence_witness :
    cr4.spec.active = true ∧ ex4.active = false ∧
    countActivates (afterUpsert cr4 rs4 [] ex4 0).trace =
      countActivates ([] : List RemoteCall) + 1 := by
  have h := (activation_convergence_spec cr4 rs4 [] ex4 0).1 rfl rfl
  exact ⟨rfl, rfl, h.1⟩

/-! ## Remote-state lemmas -/

theorem find?_id_map (g : Workflow → Workflow) (hg : ∀ x, (g x).id = x.id)
    (l : List Workflow) (i : Nat) :
    (l.map g).find? (fun w => w.id == i) = (l.find? (fun w => w.id == i)).map g := by
  induction l with
  | nil => rfl
  | cons x rest ih =>
    by_cases h : x.id = i
    · simp [List.find?_cons, hg, h]
    · simp [List.find?_cons, hg, h, ih]

theorem map_id_self {α : Type} (g : α → α) (l : List α) (h : ∀ x ∈ l, g x = x) :
    l.map g = l := by
  rw [List.map_congr_left h]
  exact List.map_id' l

theorem find?_id_self_of_mem (l : List Workflow) (w : Workflow)
    (hnd : (l.map Workflow.id).Nodup) (hmem : w ∈ l) :
    l.find? (fun x => x.id == w.id) = some w := by
  induction l with
  | nil => cases hmem
  | cons x rest ih =>
    rw [List.map_cons, List.nodup_cons] at hnd
    cases List.mem_cons.mp hmem with
    | inl h =>
      subst h
      simp [List.find?_cons]
    | inr h =>
      by_cases hx : x.id = w.id
      · exfalso
        exact hnd.1 (hx ▸ List.mem_map_of_mem Workflow.id h)
      · simp [List.find?_cons, hx]
        exact ih hnd.2 h

/-- With pairwise-distinct ids, a member is what get-by-its-id finds. -/
theorem rsGet_self_of_mem (rs : RemoteState) (w : Workflow)
    (hnd : (rs.wfs.map Workflow.id).Nodup) (hmem : w ∈ rs.wfs) :
    rsGet rs w.id = some w :=
  find?_id_self_of_mem rs.wfs w hnd hmem

theorem rsGet_mem (rs : RemoteState) (i : Nat) (w : Workflow) (h : rsGet rs i = some w) :
    w ∈ rs.wfs ∧ w.id = i := by
  refine ⟨List.mem_of_find?_eq_some h, ?_⟩
  have := List.find?_some h
  simpa using this

theorem rsFindByName_mem (rs : RemoteState) (s : String) (w : Workflow)
    (h : rsFindByName rs s = some w) : w ∈ rs.wfs ∧ w.name = s := by
  refine ⟨List.mem_of_find?_eq_some h, ?_⟩
  have := List.find?_some h
  simpa using this

theorem applyUpdate_id (w : Workflow) (req : WorkflowCreateRequest) :
    (applyUpdate w req).id = w.id := rfl

theorem applyUpdate_active (w : Workflow) (req : WorkflowCreateRequest) :
    (applyUpdate w req).active = w.active := rfl

theorem applyUpdate_matches (w : Workflow) (req : WorkflowCreateRequest) :
    matchesReq (applyUpdate w req) req :=
  ⟨rfl, rfl, rfl, rfl, rfl, rfl⟩

theorem applyUpdate_self (w : Workflow) (req : WorkflowCreateRequest)
    (h : matchesReq w req) : applyUpdate w req = w := by
  obtain ⟨h1, h2, h3, h4, h5, h6⟩ := h
  cases w
  simp_all [applyUpdate]

/-- A successful get means update touches exactly that workflow and answers
its rewritten form. -/
theorem serverUpdate_found (rs : RemoteState) (i : Nat) (req : WorkflowCreateRequest)
    (w : Workflow) (hget : rsGet rs i = some w) :
    (serverUpdate rs i req).2 = some (applyUpdate w req) ∧
    rsGet (serverUpdate rs i req).1 i = some (applyUpdate w req) := by
  have hg : ∀ x : Workflow, ((if x.id == i then applyUpdate x req else x) : Workflow).id = x.id := by
    intro x
    split <;> rfl
  have hid : w.id = i := (rsGet_mem rs i w hget).2
  have hfind : rsGet (serverUpdate rs i req).1 i = some (applyUpdate w req) := by
    show ((rs.wfs.map fun x => if x.id == i then applyUpdate x req else x).find?
      (fun x => x.id == i)) = some (applyUpdate w req)
    rw [find?_id_map _ hg]
    rw [show rs.wfs.find? (fun x => x.id == i) = some w from hget]
    simp [Option.map, hid]
  exact ⟨hfind, hfind⟩

/-- A successful get means activate/deactivate touches exactly that workflow
and answers its flipped form. -/
theorem serverSetActive_found (rs : RemoteState) (i : Nat) (b : Bool)
    (w : Workflow) (hget : rsGet rs i = some w) :
    (serverSetActive rs i b).2 = some { w with active := b } ∧
    rsGet (serverSetActive rs i b).1 i = some { w with active := b } := by
  have hg : ∀ x : Workflow, ((if x.id == i then { x with active := b } else x) : Workflow).id = x.id := by
    intro x
    split <;> rfl
  have hid : w.id = i := (rsGet_mem rs i w hget).2
  have hfind : rsGet (serverSetActive rs i b).1 i = some { w with active := b } := by
    show ((rs.wfs.map fun x => if x.id == i then { x with active := b } else x).find?
      (fun x => x.id == i)) = some { w with active := b }
    rw [find?_id_map _ hg]
    rw [show rs.wfs.find? (fun x => x.id == i) = some w from hget]
    simp [Option.map, hid]
  exact ⟨hfind, hfind⟩

/-- Updating with content the stored workflow already carries changes
nothing. -/
theorem serverUpdate_noop (rs : RemoteState) (i : Nat) (req : WorkflowCreateRequest)
    (w : Workflow) (hwf : rs.WF) (hget : rsGet rs i = some w) (hm : matchesReq w req) :
    serverUpdate rs i req = (rs, some w) := by
  have hid : w.id = i := (rsGet_mem rs i w hget).2
  have hmem : w ∈ rs.wfs := (rsGet_mem rs i w hget).1
  have hmap : (rs.wfs.map fun x => if x.id == i then applyUpdate x req else x) = rs.wfs := by
    apply map_id_self
    intro x hx
    by_cases hxi : x.id = i
    · have hxw : x = w :=
        List.inj_on_of_nodup_map hwf.1 hx hmem (by rw [hxi, hid])
      subst hxw
      simp [hxi, applyUpdate_self x req hm]
    · simp [hxi]
  unfold serverUpdate
  simp only [hmap]
  rw [show ({ rs with wfs := rs.wfs } : RemoteState) = rs from rfl]
  rw [hget]

theorem WF_serverUpdate (rs : RemoteState) (i : Nat) (req : WorkflowCreateRequest)
    (hwf : rs.WF) : (serverUpdate rs i req).1.WF := by
  have hg : ∀ x : Workflow, ((if x.id == i then applyUpdate x req else x) : Workflow).id = x.id := by
    intro x
    split <;> rfl
  constructor
  · show ((rs.wfs.map _).map Workflow.id).Nodup
    rw [List.map_map]
    rw [show (Workflow.id ∘ fun x => if x.id == i then applyUpdate x req else x) = Workflow.id
      from funext fun x => hg x]
    exact hwf.1
  · intro x hx
    have hx' : x ∈ rs.wfs.map (fun x => if x.id == i then applyUpdate x req else x) := hx
    rw [List.mem_map] at hx'
    obtain ⟨y, hy, rfl⟩ := hx'
    show _ < rs.nextID
    rw [hg y]
    exact hwf.2 y hy

theorem WF_serverSetActive (rs : RemoteState) (i : Nat) (b : Bool)
    (hwf : rs.WF) : (serverSetActive rs i b).1.WF := by
  have hg : ∀ x : Workflow, ((if x.id == i then { x with active := b } else x) : Workflow).id = x.id := by
    intro x
    split <;> rfl
  constructor
  · show ((rs.wfs.map _).map Workflow.id).Nodup
    rw [List.map_map]
    rw [show (Workflow.id ∘ fun x => if x.id == i then { x with active := b } else x) = Workflow.id
      from funext fun x => hg x]
    exact hwf.1
  · intro x hx
    have hx' : x ∈ rs.wfs.map (fun x => if x.id == i then { x with active := b } else x) := hx
    rw [List.mem_map] at hx'
    obtain ⟨y, hy, rfl⟩ := hx'
    show _ < rs.nextID
    rw [hg y]
    exact hwf.2 y hy

theorem WF_serverCreate (rs : RemoteState) (req : WorkflowCreateRequest)
    (hwf : rs.WF) : (serverCreate rs req).1.WF := by
  constructor
  · show ((rs.wfs ++ [_]).map Workflow.id).Nodup
    rw [List.map_append]
    rw [List.nodup_append]
    refine ⟨hwf.1, List.nodup_singleton _, ?_⟩
    intro a ha hb
    rw [List.mem_map] at ha
    obtain ⟨y, hy, rfl⟩ := ha
    simp at hb
    have := hwf.2 y hy
    omega
  · intro x hx
    have hx' : x ∈ rs.wfs ++ [(serverCreate rs req).2] := hx
    rw [List.mem_append] at hx'
    show x.id < rs.nextID + 1
    cases hx' with
    | inl h => exact Nat.lt_succ_of_lt (hwf.2 x h)
    | inr h =>
      rw [List.mem_singleton] at h
      subst h
      exact Nat.lt_succ_self _

/-- The created workflow is found under its fresh id. -/
theorem rsGet_serverCreate (rs : RemoteState) (req : WorkflowCreateRequest)
    (hwf : rs.WF) :
    rsGet (serverCreate rs req).1 (serverCreate rs req).2.id = some (serverCreate rs req).2 := by
  apply rsGet_self_of_mem
  · exact (WF_serverCreate rs req hwf).1
  · show (serverCreate rs req).2 ∈ rs.wfs ++ [(serverCreate rs req).2]
    exact List.mem_append_right _ (List.mem_singleton_self _)

theorem serverCreate_active (rs : RemoteState) (req : WorkflowCreateRequest) :
    (serverCreate rs req).2.active = false := rfl

theorem serverCreate_matches (rs : RemoteState) (req : WorkflowCreateRequest) :
    matchesReq (serverCreate rs req).2 req :=
  ⟨rfl, rfl, rfl, rfl, rfl, rfl⟩

/-! ## Condition upsert lemmas -/

/-- Upserting content a stable condition list already carries (at any
transition time) changes nothing. -/
theorem setStatusCondition_stable_eq (conds : List Condition) (c c' : Condition)
    (hs : Stable conds c) (hty : c'.type = c.type) (hcc : condContentEq c' c) :
    setStatusCondition conds c' = conds := by
  obtain ⟨⟨x0, hx0, hx0ty⟩, hall⟩ := hs
  have hany : conds.any (fun x => x.type == c'.type) = true := by
    rw [List.any_eq_true]
    exact ⟨x0, hx0, by simp [hx0ty, hty]⟩
  unfold setStatusCondition
  rw [if_pos hany]
  apply map_id_self
  intro x hx
  by_cases hxy : x.type = c'.type
  · have hxc := hall x hx (hxy.trans hty)
    have h1 : x.status = c'.status := hxc.1.trans hcc.1.symm
    have h2 : x.reason = c'.reason := hxc.2.1.trans hcc.2.1.symm
    have h3 : x.message = c'.message := hxc.2.2.1.trans hcc.2.2.1.symm
    have h4 : x.observedGeneration = c'.observedGeneration := hxc.2.2.2.trans hcc.2.2.2.symm
    cases x with
    | mk ty st og lt re me => simp_all
  · simp [hxy]

/-- After an upsert of `c`, the list is stable for `c`'s content. -/
theorem stable_setStatusCondition_self (conds : List Condition) (c : Condition) :
    Stable (setStatusCondition conds c) c := by
  unfold setStatusCondition
  by_cases hany : conds.any (fun x => x.type == c.type) = true
  · rw [if_pos hany]
    constructor
    · rw [List.any_eq_true] at hany
      obtain ⟨x0, hx0, hx0e⟩ := hany
      have hx0t : x0.type = c.type := by simpa using hx0e
      refine ⟨_, List.mem_map_of_mem _ hx0, ?_⟩
      simp [hx0t]
    · intro x hx hxt
      rw [List.mem_map] at hx
      obtain ⟨y, hy, rfl⟩ := hx
      by_cases hyt : y.type = c.type
      · simp only [hyt, beq_self_eq_true, if_true]
        exact ⟨rfl, rfl, rfl, rfl⟩
      · simp only [hyt, beq_iff_eq, if_neg hyt] at hxt
        exact absurd hxt hyt
  · rw [if_neg hany]
    constructor
    · exact ⟨c, List.mem_append_right _ (List.mem_singleton_self c), rfl⟩
    · intro x hx hxt
      rw [List.mem_append] at hx
      cases hx with
      | inl h =>
        exfalso
        apply hany
        rw [List.any_eq_true]
        exact ⟨x, h, by simp [hxt]⟩
      | inr h =>
        rw [List.mem_singleton] at h
        subst h
        exact ⟨rfl, rfl, rfl, rfl⟩

/-- Upserting a different condition type preserves stability. -/
theorem stable_setStatusCondition_other (conds : List Condition) (c c2 : Condition)
    (hne : c2.type ≠ c.type) (hs : Stable conds c) :
    Stable (setStatusCondition conds c2) c := by
  obtain ⟨⟨x0, hx0, hx0t⟩, hall⟩ := hs
  unfold setStatusCondition
  by_cases hany : conds.any (fun x => x.type == c2.type) = true
  · rw [if_pos hany]
    constructor
    · have hx0ne : ¬ (x0.type = c2.type) := by
        rw [hx0t]
        exact fun h => hne h.symm
      refine ⟨_, List.mem_map_of_mem _ hx0, ?_⟩
      have hb : (x0.type == c2.type) = false := by simp [hx0ne]
      simp only [hb, Bool.false_eq_true, if_false]
      exact hx0t
    · intro x hx hxt
      rw [List.mem_map] at hx
      obtain ⟨y, hy, rfl⟩ := hx
      by_cases hyt : y.type = c2.type
      · simp only [hyt, beq_self_eq_true, if_true] at hxt
        exact absurd (hyt ▸ hxt : c2.type = c.type) hne
      · simp only [beq_iff_eq, if_neg hyt] at hxt ⊢
        exact hall y hy hxt
  · rw [if_neg hany]
    constructor
    · exact ⟨x0, List.mem_append_left _ hx0, hx0t⟩
    · intro x hx hxt
      rw [List.mem_append] at hx
      cases hx with
      | inl h => exact hall x h hxt
      | inr h =>
        rw [List.mem_singleton] at h
        subst h
        exact absurd hxt hne

/-! ## Record extensionality helpers -/

theorem statusExt (a b : N8nWorkflowStatusCR)
    (h1 : a.workflowID = b.workflowID) (h2 : a.active = b.active)
    (h3 : a.lastSyncTime = b.lastSyncTime) (h4 : a.webhookURL = b.webhookURL)
    (h5 : a.observedGeneration = b.observedGeneration) (h6 : a.conditions = b.conditions) :
    a = b := by
  cases a
  cases b
  simp_all

theorem crMetaEq (x y : N8nWorkflowCR)
    (h1 : x.ns = y.ns) (h2 : x.generation = y.generation)
    (h3 : x.deletionTimestamp = y.deletionTimestamp) (h4 : x.finalizers = y.finalizers)
    (h5 : x.spec = y.spec) :
    x = { y with status := x.status } := by
  cases x
  cases y
  simp_all

theorem setWorkflowID_self (cr : N8nWorkflowCR) (i : Nat)
    (h : cr.status.workflowID = some i) :
    ({ cr with status := { cr.status with workflowID := some i } } : N8nWorkflowCR) = cr := by
  cases cr with
  | mk ns gen del fin spec status =>
    cases status
    simp_all

theorem effectivePolicy_congr (x y : N8nWorkflowCR) (h : x.spec = y.spec) :
    effectivePolicy x = effectivePolicy y := by
  simp [effectivePolicy, h]

theorem reqOf_congr (x y : N8nWorkflowCR) (h : x.spec = y.spec) :
    reqOf x = reqOf y := by
  simp [reqOf, mkCreateRequest, convertToN8nWorkflow, h]

theorem resolveExisting_getById (cr : N8nWorkflowCR) (rs : RemoteState) (i : Nat) (w : Workflow)
    (h1 : cr.status.workflowID = some i) (h2 : rsGet rs i = some w) :
    resolveExisting cr rs = (some w, [RemoteCall.getById i]) := by
  simp [resolveExisting, h1, h2]

/-- Whatever the resolution path, a found counterpart is what get-by-its-id
answers (ids are pairwise distinct). -/
theorem resolveExisting_some_get (cr : N8nWorkflowCR) (rs : RemoteState) (w : Workflow)
    (t : List RemoteCall) (hwf : rs.WF) (h : resolveExisting cr rs = (some w, t)) :
    rsGet rs w.id = some w := by
  cases h1 : cr.status.workflowID with
  | some i =>
    cases h2 : rsGet rs i with
    | some v =>
      simp only [resolveExisting, h1, h2, Prod.mk.injEq, Option.some.injEq] at h
      obtain ⟨rfl, -⟩ := h
      rw [(rsGet_mem rs i v h2).2]
      exact h2
    | none =>
      simp only [resolveExisting, h1, h2, Prod.mk.injEq] at h
      obtain ⟨hby, -⟩ := h
      exact rsGet_self_of_mem rs w hwf.1 (rsFindByName_mem rs _ w hby).1
  | none =>
    simp only [resolveExisting, h1, Prod.mk.injEq] at h
    obtain ⟨hby, -⟩ := h
    exact rsGet_self_of_mem rs w hwf.1 (rsFindByName_mem rs _ w hby).1

/-- Equal declared and remote booleans: the activation stage makes no call. -/
theorem afterUpsert_noop (cr : N8nWorkflowCR) (rs : RemoteState) (t : List RemoteCall)
    (ex : Workflow) (now : Nat) (heq : cr.spec.active = ex.active) :
    afterUpsert cr rs t ex now =
      finalize { cr with status := { cr.status with active := ex.active } } rs t ex now := by
  have h1 : (cr.spec.active && !ex.active) = false := by
    rw [heq]
    cases ex.active <;> rfl
  have h2 : (!cr.spec.active && ex.active) = false := by
    rw [heq]
    cases ex.active <;> rfl
  unfold afterUpsert
  rw [h1, h2]
  simp [heq]

/-- The activation stage, fed a fresh counterpart that the (well-formed)
remote serves by id and whose content matches the declared payload outside
`CreateOnly`, completes the pass into the `PostPass` shape. -/
theorem afterUpsert_postPass (cr0 cr : N8nWorkflowCR) (rs : RemoteState) (t : List RemoteCall)
    (ex : Workflow) (now : Nat)
    (hwf : rs.WF)
    (hget : rsGet rs ex.id = some ex)
    (hmr : effectivePolicy cr0 ≠ SyncPolicyCreateOnly → matchesReq ex (reqOf cr0))
    (hns : cr.ns = cr0.ns) (hgen : cr.generation = cr0.generation)
    (hdel : cr.deletionTimestamp = cr0.deletionTimestamp)
    (hfin : cr.finalizers = cr0.finalizers)
    (hspec : cr.spec = cr0.spec)
    (hwid : cr.status.workflowID = some ex.id) :
    PostPass cr0 (afterUpsert cr rs t ex now) now := by
  have hwid' : cr.status.workflowID.getD 0 = ex.id := by
    rw [hwid]
    rfl
  cases hsa : cr0.spec.active with
  | true =>
    have hspeca : cr.spec.active = true := by rw [hspec, hsa]
    cases hxa : ex.active with
    | false =>
      have hcond1 : (cr.spec.active && !ex.active) = true := by
        rw [hspeca, hxa]
        rfl
      have hfound := serverSetActive_found rs ex.id true ex hget
      have hpair : serverSetActive rs ex.id true
          = ((serverSetActive rs ex.id true).1, some { ex with active := true }) := by
        rw [← hfound.1]
      simp only [afterUpsert]
      rw [hwid', if_pos hcond1, hpair]
      unfold PostPass
      refine ⟨WF_serverSetActive rs ex.id true hwf, crMetaEq _ _ hns hgen hdel hfin hspec, rfl,
        ex.id, { ex with active := true }, hwid, hfound.2, hsa.symm,
        fun hpol => hmr hpol, hsa.symm, rfl, hgen, rfl, ?_, ?_⟩
      · rw [finalize_conditions, ← hgen]
        exact stable_setStatusCondition_other _ _ _
          (by show ConditionTypeSynced ≠ ConditionTypeReady; decide)
          (stable_setStatusCondition_self _ _)
      · rw [finalize_conditions, ← hgen]
        exact stable_setStatusCondition_self _ _
    | true =>
      have heq : cr.spec.active = ex.active := by rw [hspeca, hxa]
      rw [afterUpsert_noop cr rs t ex now heq]
      unfold PostPass
      refine ⟨hwf, crMetaEq _ _ hns hgen hdel hfin hspec, rfl,
        ex.id, ex, hwid, hget, hxa.trans hsa.symm,
        hmr, hxa.trans hsa.symm, rfl, hgen, rfl, ?_, ?_⟩
      · rw [finalize_conditions, ← hgen]
        exact stable_setStatusCondition_other _ _ _
          (by show ConditionTypeSynced ≠ ConditionTypeReady; decide)
          (stable_setStatusCondition_self _ _)
      · rw [finalize_conditions, ← hgen]
        exact stable_setStatusCondition_self _ _
  | false =>
    have hspeca : cr.spec.active = false := by rw [hspec, hsa]
    cases hxa : ex.active with
    | true =>
      have hcond1 : ¬ ((cr.spec.active && !ex.active) = true) := by
        rw [hspeca, hxa]
        decide
      have hcond2 : (!cr.spec.active && ex.active) = true := by
        rw [hspeca, hxa]
        rfl
      have hfound := serverSetActive_found rs ex.id false ex hget
      have hpair : serverSetActive rs ex.id false
          = ((serverSetActive rs ex.id false).1, some { ex with active := false }) := by
        rw [← hfound.1]
      simp only [afterUpsert]
      rw [hwid', if_neg hcond1, if_pos hcond2, hpair]
      unfold PostPass
      refine ⟨WF_serverSetActive rs ex.id false hwf, crMetaEq _ _ hns hgen hdel hfin hspec, rfl,
        ex.id, { ex with active := false }, hwid, hfound.2, hsa.symm,
        fun hpol => hmr hpol, hsa.symm, rfl, hgen, rfl, ?_, ?_⟩
      · rw [finalize_conditions, ← hgen]
        exact stable_setStatusCondition_other _ _ _
          (by show ConditionTypeSynced ≠ ConditionTypeReady; decide)
          (stable_setStatusCondition_self _ _)
      · rw [finalize_conditions, ← hgen]
        exact stable_setStatusCondition_self _ _
    | false =>
      have heq : cr.spec.active = ex.active := by rw [hspeca, hxa]
      rw [afterUpsert_noop cr rs t ex now heq]
      unfold PostPass
      refine ⟨hwf, crMetaEq _ _ hns hgen hdel hfin hspec, rfl,
        ex.id, ex, hwid, hget, hxa.trans hsa.symm,
        hmr, hxa.trans hsa.symm, rfl, hgen, rfl, ?_, ?_⟩
      · rw [finalize_conditions, ← hgen]
        exact stable_setStatusCondition_other _ _ _
          (by show ConditionTypeSynced ≠ ConditionTypeReady; decide)
          (stable_setStatusCondition_self _ _)
      · rw [finalize_conditions, ← hgen]
        exact stable_setStatusCondition_self _ _

/-- Every successful non-`Manual` pass (ideal remote, well-formed state) ends
in the `PostPass` shape. -/
theorem reconcile_postPass (cr : N8nWorkflowCR) (rs : RemoteState) (now : Nat)
    (hwf : rs.WF) (hman : effectivePolicy cr ≠ SyncPolicyManual) :
    PostPass cr (reconcileWorkflow cr rs now) now := by
  rw [reconcileWorkflow_eq_afterUpsert cr rs now hman]
  cases hre : resolveExisting cr rs with
  | mk o t =>
    cases o with
    | none =>
      rw [upsertPhase_create cr rs now t hre]
      exact afterUpsert_postPass cr _ _ _ _ now
        (WF_serverCreate rs (reqOf cr) hwf)
        (rsGet_serverCreate rs (reqOf cr) hwf)
        (fun _ => serverCreate_matches rs (reqOf cr))
        rfl rfl rfl rfl rfl rfl
    | some w =>
      have hget : rsGet rs w.id = some w := resolveExisting_some_get cr rs w t hwf hre
      by_cases hco : effectivePolicy cr = SyncPolicyCreateOnly
      · rw [upsertPhase_found_createOnly cr rs now w t hre hco]
        exact afterUpsert_postPass cr _ _ _ _ now
          hwf hget (fun hpol => absurd hco hpol)
          rfl rfl rfl rfl rfl rfl
      · rw [upsertPhase_found_update cr rs now w t hre hco]
        have hup := serverUpdate_found rs w.id (reqOf cr) w hget
        have hpair : serverUpdate rs w.id (reqOf cr)
            = ((serverUpdate rs w.id (reqOf cr)).1, some (applyUpdate w (reqOf cr))) := by
          rw [← hup.1]
        rw [hpair]
        exact afterUpsert_postPass cr _ _ _ _ now
          (WF_serverUpdate rs w.id (reqOf cr) hwf)
          hup.2
          (fun _ => applyUpdate_matches w (reqOf cr))
          rfl rfl rfl rfl rfl rfl

/-! ## Whole-pass equations -/

theorem reconcileWorkflow_manual (cr : N8nWorkflowCR) (rs : RemoteState) (now : Nat)
    (hm : effectivePolicy cr = SyncPolicyManual) :
    reconcileWorkflow cr rs now = manualPass cr rs now := by
  unfold reconcileWorkflow
  rw [if_pos hm]

theorem reconcileWorkflow_found_createOnly (cr : N8nWorkflowCR) (rs : RemoteState) (now : Nat)
    (w : Workflow) (t : List RemoteCall)
    (hman : effectivePolicy cr ≠ SyncPolicyManual)
    (hco : effectivePolicy cr = SyncPolicyCreateOnly)
    (hre : resolveExisting cr rs = (some w, t)) :
    reconcileWorkflow cr rs now =
      afterUpsert { cr with status := { cr.status with workflowID := some w.id } } rs t w now := by
  rw [reconcileWorkflow_eq_afterUpsert cr rs now hman,
      upsertPhase_found_createOnly cr rs now w t hre hco]

theorem upsertPhase_found_update_noop (cr : N8nWorkflowCR) (rs : RemoteState) (now : Nat)
    (w : Workflow) (t : List RemoteCall)
    (hre : resolveExisting cr rs = (some w, t))
    (hco : effectivePolicy cr ≠ SyncPolicyCreateOnly)
    (hwf : rs.WF) (hget : rsGet rs w.id = some w) (hm : matchesReq w (reqOf cr)) :
    upsertPhase cr rs now =
      Sum.inr ({ cr with status := { cr.status with workflowID := some w.id } },
               rs, t ++ [RemoteCall.update w.id], w) := by
  rw [upsertPhase_found_update cr rs now w t hre hco,
      serverUpdate_noop rs w.id (reqOf cr) w hwf hget hm]

theorem reconcileWorkflow_found_update_noop (cr : N8nWorkflowCR) (rs : RemoteState) (now : Nat)
    (w : Workflow) (t : List RemoteCall)
    (hman : effectivePolicy cr ≠ SyncPolicyManual)
    (hco : effectivePolicy cr ≠ SyncPolicyCreateOnly)
    (hre : resolveExisting cr rs = (some w, t))
    (hwf : rs.WF) (hget : rsGet rs w.id = some w) (hm : matchesReq w (reqOf cr)) :
    reconcileWorkflow cr rs now =
      afterUpsert { cr with status := { cr.status with workflowID := some w.id } }
        rs (t ++ [RemoteCall.update w.id]) w now := by
  rw [reconcileWorkflow_eq_afterUpsert cr rs now hman,
      upsertPhase_found_update_noop cr rs now w t hre hco hwf hget hm]

/-- A valid policy is effectively `Always`, `CreateOnly`, or `Manual`. -/
theorem effectivePolicy_cases (cr : N8nWorkflowCR) (hpol : validPolicy cr) :
    effectivePolicy cr = SyncPolicyAlways ∨ effectivePolicy cr = SyncPolicyCreateOnly ∨
    effectivePolicy cr = SyncPolicyManual := by
  have heff_of : ∀ s, cr.spec.syncPolicy = s → s ≠ "" → effectivePolicy cr = s := by
    intro s hs hne
    unfold effectivePolicy
    rw [hs, if_neg hne]
  rcases hpol with h | h | h | h
  · left
    unfold effectivePolicy
    rw [h]
    simp
  · left
    exact heff_of _ h (by decide)
  · right; left
    exact heff_of _ h (by decide)
  · right; right
    exact heff_of _ h (by decide)

/-- The status a repeated successful pass writes: identical except the
last-sync timestamp. -/
theorem second_pass_final (cr : N8nWorkflowCR) (out1 : PassOut) (w : Workflow)
    (T : List RemoteCall) (now2 : Nat)
    (hsact : out1.cr.status.active = cr.spec.active)
    (hwact : w.active = cr.spec.active)
    (hwurl : out1.cr.status.webhookURL = extractWebhookURL (some w))
    (hogen : out1.cr.status.observedGeneration = cr.generation)
    (hgen1 : out1.cr.generation = cr.generation)
    (hstR : Stable out1.cr.status.conditions
      { type := ConditionTypeReady, status := true, observedGeneration := cr.generation,
        lastTransitionTime := 0, reason := ReasonSyncSucceeded, message := msgSyncedOK })
    (hstS : Stable out1.cr.status.conditions
      { type := ConditionTypeSynced, status := true, observedGeneration := cr.generation,
        lastTransitionTime := 0, reason := ReasonSyncSucceeded, message := msgSyncedN8n }) :
    (finalize { out1.cr with status := { out1.cr.status with active := w.active } }
        out1.remote T w now2).cr.status
      = { out1.cr.status with lastSyncTime := some now2 } := by
  have e1 : setStatusCondition out1.cr.status.conditions
      { type := ConditionTypeReady, status := true,
        observedGeneration := out1.cr.generation,
        lastTransitionTime := now2, reason := ReasonSyncSucceeded, message := msgSyncedOK }
      = out1.cr.status.conditions :=
    setStatusCondition_stable_eq _ _ _ hstR rfl ⟨rfl, rfl, rfl, hgen1⟩
  have e2 : setStatusCondition out1.cr.status.conditions
      { type := ConditionTypeSynced, status := true,
        observedGeneration := out1.cr.generation,
        lastTransitionTime := now2, reason := ReasonSyncSucceeded, message := msgSyncedN8n }
      = out1.cr.status.conditions :=
    setStatusCondition_stable_eq _ _ _ hstS rfl ⟨rfl, rfl, rfl, hgen1⟩
  apply statusExt
  · rfl
  · show w.active = out1.cr.status.active
    rw [hwact, hsact]
  · rfl
  · exact hwurl.symm
  · show out1.cr.generation = out1.cr.status.observedGeneration
    rw [hgen1, hogen]
  · show setStatusCondition
        (setStatusCondition out1.cr.status.conditions
          { type := ConditionTypeReady, status := true,
            observedGeneration := out1.cr.generation,
            lastTransitionTime := now2, reason := ReasonSyncSucceeded, message := msgSyncedOK })
        { type := ConditionTypeSynced, status := true,
          observedGeneration := out1.cr.generation,
          lastTransitionTime := now2, reason := ReasonSyncSucceeded, message := msgSyncedN8n }
      = out1.cr.status.conditions
    rw [e1, e2]

/-- C2 (amended): a second pass with no intervening external change makes no
create, activate, deactivate, or delete call, re-issues exactly one update
call when the effective policy is `Always` (and none under `CreateOnly` or
`Manual`), leaves the remote state exactly as the first pass left it, and
rewrites the status identically except for the last-sync timestamp (which
`Manual` does not touch at all). -/
theorem second_pass_spec (cr : N8nWorkflowCR) (rs : RemoteState) (now1 now2 : Nat)
    (hwf : rs.WF) (hpol : validPolicy cr)
    (out1 out2 : PassOut)
    (h1 : out1 = reconcileWorkflow cr rs now1)
    (h2 : out2 = reconcileWorkflow out1.cr out1.remote now2) :
    countCreates out2.trace = 0 ∧ countActivates out2.trace = 0 ∧
    countDeactivates out2.trace = 0 ∧ countDeletes out2.trace = 0 ∧
    countUpdates out2.trace = (if effectivePolicy cr = SyncPolicyAlways then 1 else 0) ∧
    out2.remote = out1.remote ∧
    out2.cr.status = { out1.cr.status with lastSyncTime :=
      (if effectivePolicy cr = SyncPolicyManual then out1.cr.status.lastSyncTime
       else some now2) } := by
  rcases effectivePolicy_cases cr hpol with hA | hC | hM
  rotate_left
  rotate_left
  · -- Manual: both passes only refresh the paused condition
    rw [reconcileWorkflow_manual cr rs now1 hM] at h1
    have heffM : effectivePolicy out1.cr = SyncPolicyManual := by
      rw [h1]
      show effectivePolicy (setCond cr _ _ _ _ _) = _
      rw [effectivePolicy_congr (setCond cr _ _ _ _ _) cr rfl]
      exact hM
    rw [reconcileWorkflow_manual out1.cr out1.remote now2 heffM] at h2
    have hconds : setStatusCondition out1.cr.status.conditions
        { type := ConditionTypeReady, status := true,
          observedGeneration := out1.cr.generation,
          lastTransitionTime := now2, reason := ReasonSyncPaused, message := msgPaused }
        = out1.cr.status.conditions := by
      have hstable : Stable out1.cr.status.conditions
          { type := ConditionTypeReady, status := true,
            observedGeneration := cr.generation,
            lastTransitionTime := now1, reason := ReasonSyncPaused, message := msgPaused } := by
        rw [h1]
        exact stable_setStatusCondition_self _ _
      have hgen1 : out1.cr.generation = cr.generation := by rw [h1]; rfl
      exact setStatusCondition_stable_eq _ _ _ hstable rfl ⟨rfl, rfl, rfl, hgen1⟩
    rw [h2]
    refine ⟨rfl, rfl, rfl, rfl, ?_, rfl, ?_⟩
    · rw [if_neg (by rw [hM]; decide)]
      rfl
    · rw [if_pos hM]
      apply statusExt
      · rfl
      · rfl
      · rfl
      · rfl
      · rfl
      · show setStatusCondition out1.cr.status.conditions _ = out1.cr.status.conditions
        exact hconds
  · -- Always
    have hnm : effectivePolicy cr ≠ SyncPolicyManual := by rw [hA]; decide
    have hP := reconcile_postPass cr rs now1 hwf hnm
    rw [← h1] at hP
    unfold PostPass at hP
    obtain ⟨hwf1, hmeta, herr, id, w, hwid, hget, hwact, hmr, hsact, hwurl, hogen,
      hlast, hstR, hstS⟩ := hP
    have hspec1 : out1.cr.spec = cr.spec := by rw [hmeta]
    have hgen1 : out1.cr.generation = cr.generation := by rw [hmeta]
    have heff1 : effectivePolicy out1.cr = effectivePolicy cr :=
      effectivePolicy_congr _ _ hspec1
    have hwidw : w.id = id := (rsGet_mem _ _ _ hget).2
    have hwid' : out1.cr.status.workflowID = some w.id := by rw [hwid, hwidw]
    have hgetw : rsGet out1.remote w.id = some w := by rw [hwidw]; exact hget
    have hre2 : resolveExisting out1.cr out1.remote = (some w, [RemoteCall.getById id]) :=
      resolveExisting_getById _ _ id w hwid hget
    have heqa : out1.cr.spec.active = w.active := by rw [hspec1, hwact]
    have hman2 : effectivePolicy out1.cr ≠ SyncPolicyManual := by rw [heff1]; exact hnm
    have hco2 : effectivePolicy out1.cr ≠ SyncPolicyCreateOnly := by
      rw [heff1, hA]
      decide
    have hmrw : matchesReq w (reqOf out1.cr) := by
      rw [reqOf_congr out1.cr cr hspec1]
      exact hmr (by rw [hA]; decide)
    rw [reconcileWorkflow_found_update_noop out1.cr out1.remote now2 w _ hman2 hco2 hre2
          hwf1 hgetw hmrw,
        setWorkflowID_self out1.cr w.id hwid',
        afterUpsert_noop out1.cr out1.remote _ w now2 heqa] at h2
    rw [h2]
    refine ⟨rfl, rfl, rfl, rfl, ?_, rfl, ?_⟩
    · rw [if_pos hA]
      rfl
    · rw [if_neg hnm]
      exact second_pass_final cr out1 w _ now2 hsact hwact hwurl hogen hgen1 hstR hstS
  · -- CreateOnly
    have hnm : effectivePolicy cr ≠ SyncPolicyManual := by rw [hC]; decide
    have hP := reconcile_postPass cr rs now1 hwf hnm
    rw [← h1] at hP
    unfold PostPass at hP
    obtain ⟨hwf1, hmeta, herr, id, w, hwid, hget, hwact, hmr, hsact, hwurl, hogen,
      hlast, hstR, hstS⟩ := hP
    have hspec1 : out1.cr.spec = cr.spec := by rw [hmeta]
    have hgen1 : out1.cr.generation = cr.generation := by rw [hmeta]
    have heff1 : effectivePolicy out1.cr = effectivePolicy cr :=
      effectivePolicy_congr _ _ hspec1
    have hwidw : w.id = id := (rsGet_mem _ _ _ hget).2
    have hwid' : out1.cr.status.workflowID = some w.id := by rw [hwid, hwidw]
    have hre2 : resolveExisting out1.cr out1.remote = (some w, [RemoteCall.getById id]) :=
      resolveExisting_getById _ _ id w hwid hget
    have heqa : out1.cr.spec.active = w.active := by rw [hspec1, hwact]
    have hman2 : effectivePolicy out1.cr ≠ SyncPolicyManual := by rw [heff1]; exact hnm
    have hco2 : effectivePolicy out1.cr = SyncPolicyCreateOnly := by rw [heff1]; exact hC
    rw [reconcileWorkflow_found_createOnly out1.cr out1.remote now2 w _ hman2 hco2 hre2,
        setWorkflowID_self out1.cr w.id hwid',
        afterUpsert_noop out1.cr out1.remote _ w now2 heqa] at h2
    rw [h2]
    refine ⟨rfl, rfl, rfl, rfl, ?_, rfl, ?_⟩
    · rw [if_neg (by rw [hC]; decide)]
      rfl
    · rw [if_neg hnm]
      exact second_pass_final cr out1 w _ now2 hsact hwact hwurl hogen hgen1 hstR hstS

/-- C2 witness: concrete converged resource under the defaulted (`Always`)
policy — the second pass re-updates but changes nothing else. -/
theorem second_pass_witness :
    rsB.WF ∧ validPolicy crB ∧
    countCreates (reconcileWorkflow (reconcileWorkflow crB rsB 0).cr
        (reconcileWorkflow crB rsB 0).remote 1).trace = 0 ∧
    countUpdates (reconcileWorkflow (reconcileWorkflow crB rsB 0).cr
        (reconcileWorkflow crB rsB 0).remote 1).trace =
      (if effectivePolicy crB = SyncPolicyAlways then 1 else 0) ∧
    (reconcileWorkflow (reconcileWorkflow crB rsB 0).cr
        (reconcileWorkflow crB rsB 0).remote 1).remote =
      (reconcileWorkflow crB rsB 0).remote := by
  have hwfB : rsB.WF := by
    refine ⟨?_, ?_⟩ <;> decide
  have hvB : validPolicy crB := Or.inl rfl
  have h := second_pass_spec crB rsB 0 1 hwfB hvB _ _ rfl rfl
  exact ⟨hwfB, hvB, h.1, h.2.2.2.2.1, h.2.2.2.2.2.1⟩

/-- C2 counterexample: with no intervening external change, the second pass
still issues an update call (the claim requires no duplicate update). -/
theorem idempotence_counterexample :
    countUpdates (reconcileWorkflow (reconcileWorkflow crB rsB 0).cr
        (reconcileWorkflow crB rsB 0).remote 1).trace = 1 ∧
    countUpdates (reconcileWorkflow (reconcileWorkflow crB rsB 0).cr
        (reconcileWorkflow crB rsB 0).remote 1).trace ≠ 0 := by
  refine ⟨rfl, by decide⟩
